import Mathlib

/-!
# simple-goroutine-product: a shallow embedding

The product service of `putram11/simple-goroutine-product`, embedded as pure
state-passing functions:

* `internal/models/product.go`: `Product`, `ProductRequest`, `ProductResponse`
  and `Product.ToResponse`;
* `internal/repositories/product_repository.go`: the `ProductRepository`
  interface, as a record of state-passing methods over a store state `σ`;
* `internal/presenters/product_presenter.go`: `productPresenter` and its five
  methods.  The goroutine of `CreateProduct` / `UpdateProduct` is embedded as
  the trace of its channel sends, and the `select` of the caller as a choice
  among the cases that are ready when the `select` commits;
* `internal/presenters/simple_product_presenter_test.go`: the in-memory
  `SimpleProductRepository`;
* `internal/validators/validator.go` and the struct tags of `ProductRequest`:
  `CustomValidator.Validate`;
* `internal/repositories/product_repository.go`: `productRepository.GetAll`
  over a model of the table behind `*gorm.DB`;
* `internal/handlers/product_handler.go`: the five handlers.

Machine integers are naturals with an explicit `% 2^64` where the source
increments a `uint`; `time.Now()` reads an explicit clock that is threaded as
state; a `float64` is carried as its bit pattern (the code below only copies
prices).
-/

set_option linter.dupNamespace false

namespace SimpleGoroutineProduct

/-! ## internal/models/product.go -/

/-- Go `float64`, carried as its IEEE-754 bit pattern. -/
structure Float64 where
  bits : Nat
deriving DecidableEq, Repr

/-- Go `time.Time`, as an instant in nanoseconds; `0` is the zero value. -/
abbrev Time := Nat

/-- Width of Go's `uint` on the 64-bit targets the service is built for. -/
def uintBits : Nat := 64

/-- Product represents the product entity (`models.Product`). `DeletedAt` is
`gorm.DeletedAt`, `none` when the row is live. -/
structure Product where
  ID : Nat
  Name : String
  Description : String
  Price : Float64
  Stock : Int
  CreatedAt : Time
  UpdatedAt : Time
  DeletedAt : Option Time
deriving DecidableEq, Repr

/-- ProductRequest is the request payload for creating/updating products. -/
structure ProductRequest where
  Name : String
  Description : String
  Price : Float64
  Stock : Int
deriving DecidableEq, Repr

/-- ProductResponse is the response payload for products. -/
structure ProductResponse where
  ID : Nat
  Name : String
  Description : String
  Price : Float64
  Stock : Int
  CreatedAt : Time
  UpdatedAt : Time
deriving DecidableEq, Repr

/-- ToResponse converts Product to ProductResponse. -/
def Product.ToResponse (p : Product) : ProductResponse :=
  { ID := p.ID
    Name := p.Name
    Description := p.Description
    Price := p.Price
    Stock := p.Stock
    CreatedAt := p.CreatedAt
    UpdatedAt := p.UpdatedAt }

/-! ## Go runtime: errors, contexts, channels, select -/

/-- Go `error` values, up to the dynamic type and text of the value.
`errorString s` is a value built by `errors.New(s)`; `deadlineExceeded` is
`context.DeadlineExceeded` (its own type `deadlineExceededError`); `other`
covers every error of another dynamic type that a store may return. -/
inductive Error where
  | errorString (s : String)
  | deadlineExceeded
  | other (kind : String) (text : String)
deriving DecidableEq, Repr

/-- Go `errors.New`. -/
def errors.New (text : String) : Error := Error.errorString text

/-- Go `context.Canceled`, declared as `errors.New("context canceled")`. -/
def context.Canceled : Error := errors.New "context canceled"

/-- Go `context.DeadlineExceeded`. -/
def context.DeadlineExceeded : Error := Error.deadlineExceeded

/-- The text `err.Error()` of an error value. -/
def Error.Error : Error → String
  | Error.errorString s => s
  | Error.deadlineExceeded => "context deadline exceeded"
  | Error.other _ text => text

/-- Why a context is done: its cancel function ran, or a deadline (its own or an
ancestor's) fired. -/
inductive DoneReason where
  | canceled
  | deadline
deriving DecidableEq, Repr

/-- A `context.Context` as the presenter sees it: the instant, counted in
nanoseconds from the moment the caller enters its `select`, at which `Done()`
is closed (`none`: never; `some 0`: already closed on entry), and the reason
that `Err()` then reports. -/
structure Context where
  doneAt : Option Nat
  reason : DoneReason
deriving DecidableEq, Repr

/-- Go `context.Background()`: never done. -/
def context.Background : Context := { doneAt := none, reason := DoneReason.canceled }

/-- The value of `ctx.Err()` once `ctx.Done()` is closed: "Canceled if the
context was canceled or DeadlineExceeded if the context's deadline passed". -/
def Context.Err (ctx : Context) : Error :=
  match ctx.reason with
  | DoneReason.canceled => context.Canceled
  | DoneReason.deadline => context.DeadlineExceeded

/-- Go `time.Second`, in nanoseconds. -/
def time.Second : Nat := 1000000000

/-- The duration given to `time.After` in both `select`s of the presenter:
`30 * time.Second`. -/
def operationTimeout : Nat := 30 * time.Second

/-- A Go channel: its capacity and the values waiting in its buffer. -/
structure Chan (α : Type) where
  cap : Nat
  buf : List α
deriving Repr

/-- Go `make(chan T, cap)`. -/
def Chan.make {α : Type} (cap : Nat) : Chan α := { cap := cap, buf := [] }

/-- A send `c <- v` while no receiver is waiting on `c`: it proceeds iff the
buffer has room; `none` means that the sender blocks. -/
def Chan.send {α : Type} (c : Chan α) (v : α) : Option (Chan α) :=
  if c.buf.length < c.cap then some { c with buf := c.buf ++ [v] } else none

/-- A receive `<-c` from the buffer; `none` means that nothing is buffered. -/
def Chan.recv {α : Type} (c : Chan α) : Option (α × Chan α) :=
  match c.buf with
  | [] => none
  | v :: rest => some (v, { c with buf := rest })

/-- The three cases of the presenter's `select`, in source order. -/
inductive Arm where
  | resultChan
  | ctxDone
  | timeAfter
deriving DecidableEq, Repr

/-- What the Go runtime decides for one call of `CreateProduct` or
`UpdateProduct`: the instant (nanoseconds from the caller entering `select`) at
which the goroutine finishes, `none` when its store call never returns, and the
pseudo-random number that `select` uses to pick among several ready cases. -/
structure Runtime where
  opAt : Option Nat
  rand : Nat
deriving DecidableEq, Repr

/-- The instant at which a case of the `select` becomes able to proceed. The
timer of `time.After` is started on entry, so it fires at `operationTimeout`. -/
def readyAt (ctx : Context) (rt : Runtime) : Arm → Option Nat
  | Arm.resultChan => rt.opAt
  | Arm.ctxDone => ctx.doneAt
  | Arm.timeAfter => some operationTimeout

/-- The minimum of an instant and an optional instant. -/
def earlier (t : Nat) : Option Nat → Nat
  | none => t
  | some u => min t u

/-- The instant at which the `select` commits: the first instant at which some
case can proceed. The timer always fires, so this is at most the timeout. -/
def commitAt (ctx : Context) (rt : Runtime) : Nat :=
  earlier (earlier operationTimeout ctx.doneAt) rt.opAt

/-- Whether a case can proceed at the instant the `select` commits. -/
def isReady (ctx : Context) (rt : Runtime) (a : Arm) : Bool :=
  match readyAt ctx rt a with
  | none => false
  | some t => decide (t ≤ commitAt ctx rt)

/-- The cases that can proceed when the `select` commits, in source order. -/
def readyArms (ctx : Context) (rt : Runtime) : List Arm :=
  [Arm.resultChan, Arm.ctxDone, Arm.timeAfter].filter (isReady ctx rt)

/-- Go `select`: it blocks until at least one case can proceed and then takes
one of the cases that can, chosen pseudo-randomly. -/
def selectArm (ctx : Context) (rt : Runtime) : Arm :=
  (readyArms ctx rt).getD (rt.rand % (readyArms ctx rt).length) Arm.timeAfter

/-! ## internal/repositories/product_repository.go -/

/-- ProductRepository interface for product data operations, over a store state
`σ`. A method that takes a `*models.Product` returns the record as the store
left it behind the pointer; a `nil` record or error is `none`. -/
structure ProductRepository (σ : Type) where
  Create : σ → Product → σ × Product × Option Error
  GetByID : σ → Nat → σ × Option Product × Option Error
  GetAll : σ → Int → Int → σ × List Product × Int × Option Error
  Update : σ → Product → σ × Product × Option Error
  Delete : σ → Nat → σ × Option Error

/-! ## internal/presenters/product_presenter.go -/

/-- The anonymous struct that travels on `resultChan`. -/
structure Result where
  product : Option Product
  err : Option Error
deriving DecidableEq, Repr

/-- Capacity of `resultChan`: `make(chan struct{...}, 1)`. -/
def resultChanCap : Nat := 1

/-- What a goroutine of the presenter did: the store as it leaves it, the
values it sent on `resultChan` in order, and whether it ended in a run-time
panic (a nil pointer dereference). -/
structure GoTrace (σ : Type) where
  store : σ
  sends : List Result
  panicked : Bool

/-- What the caller of `CreateProduct` / `UpdateProduct` observes: the pair it
gets back, or the process going down with an unrecovered panic. -/
inductive CallResult where
  | returned (response : Option ProductResponse) (err : Option Error)
  | crashed
deriving DecidableEq, Repr

/-- productPresenter implements ProductPresenter. -/
structure productPresenter (σ : Type) where
  productRepo : ProductRepository σ

/-- The record that `CreateProduct` builds from the request (lines 42-47): the
fields that are not listed keep their zero value. -/
def newProduct (req : ProductRequest) : Product :=
  { ID := 0
    Name := req.Name
    Description := req.Description
    Price := req.Price
    Stock := req.Stock
    CreatedAt := 0
    UpdatedAt := 0
    DeletedAt := none }

/-- The four assignments of `UpdateProduct` (lines 122-125). -/
def updateFields (product : Product) (req : ProductRequest) : Product :=
  { product with
    Name := req.Name
    Description := req.Description
    Price := req.Price
    Stock := req.Stock }

/-- The goroutine of `CreateProduct` (lines 41-54). -/
def createGoroutine {σ : Type} (p : productPresenter σ) (s : σ) (req : ProductRequest) :
    GoTrace σ :=
  match p.productRepo.Create s (newProduct req) with
  | (s1, product1, err) =>
    { store := s1, sends := [{ product := some product1, err := err }], panicked := false }

/-- The goroutine of `UpdateProduct` (lines 110-133). When `GetByID` hands back
a nil record with a nil error, `product.Name = req.Name` dereferences nil: the
goroutine panics before any send. -/
def updateGoroutine {σ : Type} (p : productPresenter σ) (s : σ) (id : Nat)
    (req : ProductRequest) : GoTrace σ :=
  match p.productRepo.GetByID s id with
  | (s1, product, err) =>
    if err.isSome then
      { store := s1, sends := [{ product := none, err := err }], panicked := false }
    else
      match product with
      | none => { store := s1, sends := [], panicked := true }
      | some product0 =>
        match p.productRepo.Update s1 (updateFields product0 req) with
        | (s2, product2, err2) =>
          { store := s2, sends := [{ product := some product2, err := err2 }],
            panicked := false }

/-- The body of the `case result := <-resultChan` branch. `ToResponse` has a
pointer receiver and reads its fields, so a nil record without an error is a
nil dereference. -/
def onResult (result : Result) : CallResult :=
  if result.err.isSome then
    CallResult.returned none result.err
  else
    match result.product with
    | none => CallResult.crashed
    | some product => CallResult.returned (some product.ToResponse) none

/-- The `select` of `CreateProduct` / `UpdateProduct` (lines 57-68, 136-147).
The instant `rt.opAt` is the one at which the goroutine finishes; when it
finishes by a panic nothing arrives on `resultChan` and the process goes down
at that instant instead, unless the caller has returned before. -/
def await {σ : Type} (ctx : Context) (rt : Runtime) (tr : GoTrace σ) : CallResult :=
  match selectArm ctx rt with
  | Arm.resultChan =>
    match tr.sends.head? with
    | none => CallResult.crashed
    | some result => onResult result
  | Arm.ctxDone => CallResult.returned none (some ctx.Err)
  | Arm.timeAfter => CallResult.returned none (some (errors.New "operation timeout"))

/-- CreateProduct creates a new product using goroutine. The store returned is
the one the goroutine leaves, whichever case the caller's `select` took. -/
def productPresenter.CreateProduct {σ : Type} (p : productPresenter σ) (s : σ)
    (rt : Runtime) (ctx : Context) (req : ProductRequest) : σ × CallResult :=
  let tr := createGoroutine p s req
  (tr.store, await ctx rt tr)

/-- GetProduct gets a product by ID. -/
def productPresenter.GetProduct {σ : Type} (p : productPresenter σ) (s : σ)
    (_ctx : Context) (id : Nat) : σ × Option ProductResponse × Option Error :=
  match p.productRepo.GetByID s id with
  | (s1, product, err) =>
    if err.isSome then
      (s1, none, err)
    else
      match product with
      | none => (s1, none, none)
      | some product0 => (s1, some product0.ToResponse, none)

/-- GetProducts gets all products with pagination. -/
def productPresenter.GetProducts {σ : Type} (p : productPresenter σ) (s : σ)
    (_ctx : Context) (page limit : Int) :
    σ × List ProductResponse × Int × Option Error :=
  match p.productRepo.GetAll s page limit with
  | (s1, products, total, err) =>
    if err.isSome then
      (s1, [], 0, err)
    else
      (s1, products.map Product.ToResponse, total, none)

/-- UpdateProduct updates a product using goroutine. -/
def productPresenter.UpdateProduct {σ : Type} (p : productPresenter σ) (s : σ)
    (rt : Runtime) (ctx : Context) (id : Nat) (req : ProductRequest) : σ × CallResult :=
  let tr := updateGoroutine p s id req
  (tr.store, await ctx rt tr)

/-- DeleteProduct deletes a product. -/
def productPresenter.DeleteProduct {σ : Type} (p : productPresenter σ) (s : σ)
    (_ctx : Context) (id : Nat) : σ × Option Error :=
  p.productRepo.Delete s id

/-- ProductPresenter interface for business logic, over a presenter state `π`. -/
structure ProductPresenter (π : Type) where
  CreateProduct : π → Runtime → Context → ProductRequest → π × CallResult
  GetProduct : π → Context → Nat → π × Option ProductResponse × Option Error
  GetProducts : π → Context → Int → Int → π × List ProductResponse × Int × Option Error
  UpdateProduct : π → Runtime → Context → Nat → ProductRequest → π × CallResult
  DeleteProduct : π → Context → Nat → π × Option Error

/-- NewProductPresenter creates a new product presenter. -/
def NewProductPresenter {σ : Type} (productRepo : ProductRepository σ) : ProductPresenter σ :=
  let p : productPresenter σ := { productRepo := productRepo }
  { CreateProduct := p.CreateProduct
    GetProduct := p.GetProduct
    GetProducts := p.GetProducts
    UpdateProduct := p.UpdateProduct
    DeleteProduct := p.DeleteProduct }

/-- The producer side of `resultChan`: the goroutine performs its sends in
order. `waiting` says whether the caller is still in its `select` and takes
the first value; a caller that has returned on cancellation or timeout never
receives. `none` means that some send blocks. -/
def handOff : Bool → List Result → Chan Result → Option (Chan Result)
  | _, [], c => some c
  | waiting, v :: vs, c =>
    match c.send v with
    | none => none
    | some c1 =>
      if waiting then
        match c1.recv with
        | none => handOff false vs c1
        | some (_, c2) => handOff false vs c2
      else handOff false vs c1

/-! ## internal/presenters/simple_product_presenter_test.go -/

/-- The process clock behind `time.Now()`: the successive readings and how many
have been taken. -/
structure Clock where
  readings : Nat → Time
  reads : Nat

/-- Go `time.Now()`. -/
def Clock.Now (c : Clock) : Time × Clock :=
  (c.readings c.reads, { c with reads := c.reads + 1 })

/-- SimpleProductRepository is a simple mock implementation. The clock that its
methods read through `time.Now()` is threaded along with its two fields. -/
structure SimpleProductRepository where
  products : List Product
  nextID : Nat
  clock : Clock

/-- NewSimpleProductRepository: no products, `nextID` 1. -/
def NewSimpleProductRepository (clock : Clock) : SimpleProductRepository :=
  { products := [], nextID := 1, clock := clock }

/-- Create (lines 23-30); `r.nextID++` is a `uint` increment. -/
def SimpleProductRepository.Create (r : SimpleProductRepository) (product : Product) :
    SimpleProductRepository × Product × Option Error :=
  match r.clock.Now with
  | (now1, clock1) =>
    match clock1.Now with
    | (now2, clock2) =>
      let product1 : Product :=
        { product with ID := r.nextID, CreatedAt := now1, UpdatedAt := now2 }
      ({ products := r.products ++ [product1]
         nextID := (r.nextID + 1) % 2 ^ uintBits
         clock := clock2 }, product1, none)

/-- GetByID (lines 32-39): the first product with the id, else `nil, nil`. -/
def SimpleProductRepository.GetByID (r : SimpleProductRepository) (id : Nat) :
    SimpleProductRepository × Option Product × Option Error :=
  (r, r.products.find? (fun product => product.ID == id), none)

/-- GetAll (lines 41-43): every product, whatever the page. -/
def SimpleProductRepository.GetAll (r : SimpleProductRepository) (_page _limit : Int) :
    SimpleProductRepository × List Product × Int × Option Error :=
  (r, r.products, (r.products.length : Int), none)

/-- The loop of `Update`: the first slot whose id is `product.ID` is overwritten
with `product`, and the loop ends there. -/
def replaceFirst (product : Product) : List Product → List Product
  | [] => []
  | p :: rest =>
    if p.ID == product.ID then product :: rest
    else p :: replaceFirst product rest

/-- Update (lines 45-54): on the first product with the id, `UpdatedAt` is set
through the pointer to `time.Now()` and the slot overwritten. -/
def SimpleProductRepository.Update (r : SimpleProductRepository) (product : Product) :
    SimpleProductRepository × Product × Option Error :=
  if r.products.any (fun p => p.ID == product.ID) then
    match r.clock.Now with
    | (now, clock1) =>
      let product1 : Product := { product with UpdatedAt := now }
      ({ r with products := replaceFirst product1 r.products, clock := clock1 }, product1, none)
  else
    (r, product, none)

/-- Delete (lines 56-64): the first product with the id is cut out of the
slice; `nil` is returned either way. -/
def SimpleProductRepository.Delete (r : SimpleProductRepository) (id : Nat) :
    SimpleProductRepository × Option Error :=
  ({ r with products := r.products.eraseP (fun product => product.ID == id) }, none)

/-- The in-memory store as a `ProductRepository`. -/
def simpleRepo : ProductRepository SimpleProductRepository :=
  { Create := SimpleProductRepository.Create
    GetByID := SimpleProductRepository.GetByID
    GetAll := SimpleProductRepository.GetAll
    Update := SimpleProductRepository.Update
    Delete := SimpleProductRepository.Delete }

/-- The presenter of the tests: `NewProductPresenter(repo)` over the in-memory
store. -/
def simplePresenter : productPresenter SimpleProductRepository :=
  { productRepo := simpleRepo }

/-- A call of one of the store's mutating methods. -/
inductive StoreOp where
  | create (product : Product)
  | update (product : Product)
  | delete (id : Nat)
deriving DecidableEq, Repr

/-- The store after one call. -/
def StoreOp.apply (r : SimpleProductRepository) : StoreOp → SimpleProductRepository
  | StoreOp.create product => (r.Create product).1
  | StoreOp.update product => (r.Update product).1
  | StoreOp.delete id => (r.Delete id).1

/-- The store reached from `NewSimpleProductRepository()` by a sequence of
calls. -/
def history (clock : Clock) (ops : List StoreOp) : SimpleProductRepository :=
  ops.foldl StoreOp.apply (NewSimpleProductRepository clock)

/-- How many of the calls are `Create`. -/
def creations : List StoreOp → Nat
  | [] => 0
  | StoreOp.create _ :: ops => creations ops + 1
  | _ :: ops => creations ops

/-- The ids in the store are strictly increasing along the slice and all below
the counter `nextID`: what holds of the store as long as the counter has not
wrapped around. -/
def CounterAhead (r : SimpleProductRepository) : Prop :=
  (r.products.map Product.ID).Pairwise (fun a b => a < b) ∧
    ∀ product ∈ r.products, product.ID < r.nextID

/-! ## Go runtime: machine integers, `strconv.Atoi`, `float64` comparisons -/

/-- Width of Go's `int` on the 64-bit targets the service is built for. -/
def intBits : Nat := 64

/-- The value of an `int` expression whose exact value is `x`: two's complement
wrap-around to `intBits` bits. -/
def wrapInt (x : Int) : Int :=
  (x + 2 ^ (intBits - 1)) % 2 ^ intBits - 2 ^ (intBits - 1)

/-- The value of a string of ASCII digits, most significant first. -/
def digitsValue (cs : List Char) : Nat :=
  cs.foldl (fun n c => 10 * n + (c.toNat - 48)) 0

/-- The two kinds of `*strconv.NumError`: `ErrSyntax` (`malformed`) and
`ErrRange` (`outOfRange`). -/
inductive NumError where
  | malformed
  | outOfRange
deriving DecidableEq, Repr

/-- The digits of a signed decimal numeral after its optional sign, with
whether the sign is `-`. -/
def splitSign : List Char → Bool × List Char
  | '-' :: rest => (true, rest)
  | '+' :: rest => (false, rest)
  | cs => (false, cs)

/-- The loop of `strconv.ParseUint` for base 10 and 64 bits, over the
characters after the sign, with the value `n` read so far. A character that is
not a decimal digit ends it with 0 and `ErrSyntax`; a digit with which the
value would leave the range of `uint64` ends it with the largest `uint64` and
`ErrRange`, whatever follows. -/
def scanDigits : Nat → List Char → Nat × Option NumError
  | n, [] => (n, none)
  | n, c :: cs =>
    if 48 ≤ c.toNat ∧ c.toNat ≤ 57 then
      if n ≥ (2 ^ intBits - 1) / 10 + 1 then (2 ^ intBits - 1, some NumError.outOfRange)
      else if 10 * n + (c.toNat - 48) > 2 ^ intBits - 1 then
        (2 ^ intBits - 1, some NumError.outOfRange)
      else scanDigits (10 * n + (c.toNat - 48)) cs
    else (0, some NumError.malformed)

/-- Go `strconv.Atoi(s)`: an optional sign and a non-empty run of decimal
digits. A syntax error gives 0 and `ErrSyntax`; a numeral outside the range of
`int` gives the nearest `int` and `ErrRange`. -/
def strconv.Atoi (s : String) : Int × Option NumError :=
  match splitSign s.data with
  | (negative, digits) =>
    if digits.isEmpty then (0, some NumError.malformed)
    else if (scanDigits 0 digits).2 = some NumError.malformed then (0, some NumError.malformed)
    else if negative then
      if (scanDigits 0 digits).1 > 2 ^ (intBits - 1) then
        (-(2 ^ (intBits - 1) : Int), some NumError.outOfRange)
      else (-((scanDigits 0 digits).1 : Int), none)
    else
      if (scanDigits 0 digits).1 ≥ 2 ^ (intBits - 1) then
        ((2 ^ (intBits - 1) : Int) - 1, some NumError.outOfRange)
      else (((scanDigits 0 digits).1 : Int), none)

/-- The sign bit of a `float64`. -/
def Float64.sign (f : Float64) : Nat := f.bits / 2 ^ 63 % 2

/-- The biased exponent of a `float64`. -/
def Float64.exponent (f : Float64) : Nat := f.bits / 2 ^ 52 % 2048

/-- The fraction bits of a `float64`. -/
def Float64.fraction (f : Float64) : Nat := f.bits % 2 ^ 52

/-- Whether a `float64` is a NaN. -/
def Float64.isNaN (f : Float64) : Bool := f.exponent == 2047 && f.fraction != 0

/-- Go `f == 0`: positive or negative zero. -/
def Float64.isZero (f : Float64) : Bool := f.exponent == 0 && f.fraction == 0

/-- Go `f >= 0`: not a NaN, and positive or a zero. -/
def Float64.geZero (f : Float64) : Bool := !f.isNaN && (f.sign == 0 || f.isZero)

/-- Go `f > 0`. -/
def Float64.gtZero (f : Float64) : Bool := f.geZero && !f.isZero

/-! ## internal/validators/validator.go -/

/-- CustomValidator implements echo.Validator interface. Its one field is the
`*validator.Validate` of go-playground/validator; what the model keeps of it is
the one point on which versions of that library and of `reflect` differ:
whether the `required` tag takes the `float64` negative zero for the zero
value. -/
structure CustomValidator where
  negativeZeroIsZero : Bool
deriving DecidableEq, Repr

/-- The tag `required` on a string field: not the zero value `""`. -/
def requiredString (v : String) : Bool := v != ""

/-- The tag `required` on a `float64` field: not the zero value. -/
def requiredFloat (cv : CustomValidator) (v : Float64) : Bool :=
  if cv.negativeZeroIsZero then !v.isZero else v.bits != 0

/-- The tag `min=0` on a `float64` field: `v >= 0`. -/
def minZeroFloat (v : Float64) : Bool := v.geZero

/-- The tag `min=0` on an `int` field: `v >= 0`. -/
def minZeroInt (v : Int) : Bool := decide (0 ≤ v)

/-- The tag that fails on `Name` (`validate:"required"`), if any. -/
def nameFailure (req : ProductRequest) : Option String :=
  if requiredString req.Name then none else some "required"

/-- The first tag that fails on `Price` (`validate:"required,min=0"`), if
any. -/
def priceFailure (cv : CustomValidator) (req : ProductRequest) : Option String :=
  if !requiredFloat cv req.Price then some "required"
  else if !minZeroFloat req.Price then some "min"
  else none

/-- The tag that fails on `Stock` (`validate:"min=0"`), if any. -/
def stockFailure (req : ProductRequest) : Option String :=
  if minZeroInt req.Stock then none else some "min"

/-- The text of one `validator.FieldError`. -/
def fieldErrorText (field tag : String) : String :=
  "Key: 'ProductRequest." ++ field ++ "' Error:Field validation for '" ++ field ++
    "' failed on the '" ++ tag ++ "' tag"

/-- The field errors of `cv.validator.Struct(req)`, in field order; the field
`Description` carries no tag. -/
def fieldErrors (cv : CustomValidator) (req : ProductRequest) : List String :=
  ((nameFailure req).map (fieldErrorText "Name")).toList ++
  ((priceFailure cv req).map (fieldErrorText "Price")).toList ++
  ((stockFailure req).map (fieldErrorText "Stock")).toList

/-- Validate validates a struct: a failure of the library comes back as
`echo.NewHTTPError(400, err.Error())`. -/
def CustomValidator.Validate (cv : CustomValidator) (req : ProductRequest) : Option Error :=
  match fieldErrors cv req with
  | [] => none
  | failures =>
    some (Error.other "*echo.HTTPError"
      ("code=400, message=" ++ String.intercalate "\n" failures))

/-! ## internal/repositories/product_repository.go: the store behind `GetAll` -/

/-- Modelled from the spec: the Data Store behind `productRepository`, of which
the repository holds only the handle `*gorm.DB`. The table of products in
primary-key order, soft-deleted rows included, and the error with which every
statement fails while the connection is broken (`none`: healthy). -/
structure DB where
  rows : List Product
  fault : Option Error
deriving DecidableEq, Repr

/-- The rows a query sees: a soft-deleted product is excluded from all reads. -/
def DB.live (db : DB) : List Product :=
  db.rows.filter (fun row => row.DeletedAt.isNone)

/-- Modelled from the spec: `db.Model(&models.Product{}).Count(&total)`, the
total unpaginated count; on a failure `total` keeps its zero value. -/
def DB.Count (db : DB) : Int × Option Error :=
  match db.fault with
  | some e => (0, some e)
  | none => ((db.live.length : Int), none)

/-- Modelled from the spec: `db.Offset(offset).Limit(limit).Find(&products)`,
the page slice. The query builder leaves out an `OFFSET` that is not positive
and a `LIMIT` that is negative. -/
def DB.Find (db : DB) (offset limit : Int) : List Product × Option Error :=
  match db.fault with
  | some e => ([], some e)
  | none =>
    let skipped := if 0 < offset then db.live.drop offset.toNat else db.live
    (if 0 ≤ limit then skipped.take limit.toNat else skipped, none)

/-- productRepository implements ProductRepository. -/
structure productRepository where
  db : DB
deriving DecidableEq, Repr

/-- The offset of `GetAll` (line 52): `(page - 1) * limit` in `int`
arithmetic. -/
def pageOffset (page limit : Int) : Int :=
  wrapInt (wrapInt (page - 1) * limit)

/-- GetAll gets all products with pagination (lines 43-56); the error of
`Count` is dropped. -/
def productRepository.GetAll (r : productRepository) (page limit : Int) :
    productRepository × List Product × Int × Option Error :=
  match r.db.Count with
  | (total, _) =>
    match r.db.Find (pageOffset page limit) limit with
    | (products, err) => (r, products, total, err)

/-- A store that does nothing but write down the `(page, limit)` of every call
of `GetAll`. -/
def recordingRepo : ProductRepository (List (Int × Int)) :=
  { Create := fun s product => (s, product, none)
    GetByID := fun s _ => (s, none, none)
    GetAll := fun s page limit => (s ++ [(page, limit)], [], 0, none)
    Update := fun s product => (s, product, none)
    Delete := fun s _ => (s, none) }

/-! ## internal/handlers/product_handler.go -/

/-- Go `http.StatusOK`. -/
def http.StatusOK : Nat := 200

/-- Go `http.StatusCreated`. -/
def http.StatusCreated : Nat := 201

/-- Go `http.StatusInternalServerError`. -/
def http.StatusInternalServerError : Nat := 500

/-- Go `http.StatusBadRequest`. -/
def http.StatusBadRequest : Nat := 400

/-- Go `http.StatusNotFound`. -/
def http.StatusNotFound : Nat := 404

/-- The JSON bodies the handlers write: `map[string]string` with the key
`error` or `message`, a `*models.ProductResponse` (nil encodes as `null`), or
the map with the keys `data`, `total`, `page` and `limit` of `GetProducts`. -/
inductive Body where
  | error (text : String)
  | message (text : String)
  | product (p : Option ProductResponse)
  | listing (data : List ProductResponse) (total : Int) (page : Int) (limit : Int)
deriving DecidableEq, Repr

/-- What `c.JSON(code, body)` writes. -/
structure Response where
  code : Nat
  body : Body
deriving DecidableEq, Repr

/-- The part of `echo.Context` the handlers read: path parameters, the
request's context, query parameters (`""` when missing), the request that
`c.Bind(&req)` decodes from the body (`none`: `Bind` fails) and the validator
registered on the Echo instance (`none`: not registered). -/
structure EchoContext where
  Param : String → String
  ctx : Context
  QueryParam : String → String := fun _ => ""
  body : Option ProductRequest := none
  Validator : Option CustomValidator := none

/-- Echo's `c.Validate(i)`: `ErrValidatorNotRegistered`, which is
`errors.New("validator not registered")`, without a validator, else the
validator's verdict. -/
def EchoContext.Validate (c : EchoContext) (req : ProductRequest) : Option Error :=
  match c.Validator with
  | none => some (errors.New "validator not registered")
  | some cv => cv.Validate req

/-- Go `strconv.ParseUint(s, 10, bitSize)`: a non-empty string of decimal
digits, without sign or underscore, whose value fits in `bitSize` bits; every
other string is an error (`none`). -/
def strconv.ParseUint (s : String) (bitSize : Nat) : Option Nat :=
  if s.data.isEmpty then none
  else if s.data.all (fun c => decide (48 ≤ c.toNat ∧ c.toNat ≤ 57)) then
    if digitsValue s.data < 2 ^ bitSize then some (digitsValue s.data) else none
  else none

/-- ProductHandler handles HTTP requests for products. -/
structure ProductHandler (π : Type) where
  presenter : ProductPresenter π

/-- NewProductHandler creates a new product handler. -/
def NewProductHandler {π : Type} (presenter : ProductPresenter π) : ProductHandler π :=
  { presenter := presenter }

/-- GetProduct (lines 64-77). -/
def ProductHandler.GetProduct {π : Type} (h : ProductHandler π) (s : π) (c : EchoContext) :
    π × Response :=
  match strconv.ParseUint (c.Param "id") 32 with
  | none => (s, { code := http.StatusBadRequest, body := Body.error "Invalid product ID" })
  | some id =>
    match h.presenter.GetProduct s c.ctx id with
    | (s1, product, err) =>
      if err.isSome then
        (s1, { code := http.StatusNotFound, body := Body.error "Product not found" })
      else
        (s1, { code := http.StatusOK, body := Body.product product })

/-- DeleteProduct (lines 161-174). -/
def ProductHandler.DeleteProduct {π : Type} (h : ProductHandler π) (s : π) (c : EchoContext) :
    π × Response :=
  match strconv.ParseUint (c.Param "id") 32 with
  | none => (s, { code := http.StatusBadRequest, body := Body.error "Invalid product ID" })
  | some id =>
    match h.presenter.DeleteProduct s c.ctx id with
    | (s1, err) =>
      if err.isSome then
        (s1, { code := http.StatusNotFound, body := Body.error "Product not found" })
      else
        (s1, { code := http.StatusOK, body := Body.message "Product deleted successfully" })

/-- What a handler of `CreateProduct` / `UpdateProduct` writes once the
presenter's call is over; `none` when the process went down in the call. -/
def writeResult (success : Nat) : CallResult → Option Response
  | CallResult.crashed => none
  | CallResult.returned product err =>
    match err with
    | some e => some { code := http.StatusInternalServerError, body := Body.error e.Error }
    | none => some { code := success, body := Body.product product }

/-- CreateProduct (lines 25-41). -/
def ProductHandler.CreateProduct {π : Type} (h : ProductHandler π) (s : π) (rt : Runtime)
    (c : EchoContext) : π × Option Response :=
  match c.body with
  | none =>
    (s, some { code := http.StatusBadRequest, body := Body.error "Invalid request payload" })
  | some req =>
    match c.Validate req with
    | some err => (s, some { code := http.StatusBadRequest, body := Body.error err.Error })
    | none =>
      match h.presenter.CreateProduct s rt c.ctx req with
      | (s1, result) => (s1, writeResult http.StatusCreated result)

/-- The page that `GetProducts` passes on (lines 90-93): the error of `Atoi` is
dropped, a value that is not positive becomes 1. -/
def pageParam (c : EchoContext) : Int :=
  if (strconv.Atoi (c.QueryParam "page")).1 ≤ 0 then 1
  else (strconv.Atoi (c.QueryParam "page")).1

/-- The limit that `GetProducts` passes on (lines 95-98): a value that is not
positive becomes 10. -/
def limitParam (c : EchoContext) : Int :=
  if (strconv.Atoi (c.QueryParam "limit")).1 ≤ 0 then 10
  else (strconv.Atoi (c.QueryParam "limit")).1

/-- GetProducts (lines 89-111). -/
def ProductHandler.GetProducts {π : Type} (h : ProductHandler π) (s : π) (c : EchoContext) :
    π × Response :=
  match h.presenter.GetProducts s c.ctx (pageParam c) (limitParam c) with
  | (s1, products, total, err) =>
    match err with
    | some e => (s1, { code := http.StatusInternalServerError, body := Body.error e.Error })
    | none =>
      (s1, { code := http.StatusOK,
             body := Body.listing products total (pageParam c) (limitParam c) })

/-- UpdateProduct (lines 126-148). -/
def ProductHandler.UpdateProduct {π : Type} (h : ProductHandler π) (s : π) (rt : Runtime)
    (c : EchoContext) : π × Option Response :=
  match strconv.ParseUint (c.Param "id") 32 with
  | none => (s, some { code := http.StatusBadRequest, body := Body.error "Invalid product ID" })
  | some id =>
    match c.body with
    | none =>
      (s, some { code := http.StatusBadRequest, body := Body.error "Invalid request payload" })
    | some req =>
      match c.Validate req with
      | some err => (s, some { code := http.StatusBadRequest, body := Body.error err.Error })
      | none =>
        match h.presenter.UpdateProduct s rt c.ctx id req with
        | (s1, result) => (s1, writeResult http.StatusOK result)

/-- The handler of the running service's wiring, over the in-memory store. -/
def simpleHandler : ProductHandler SimpleProductRepository :=
  NewProductHandler (NewProductPresenter simpleRepo)

/-! ## Sample inputs -/

/-- A clock whose n-th reading is `1000 + n`. -/
def sampleClock : Clock := { readings := fun n => 1000 + n, reads := 0 }

/-- The request of the spec's scenario: Widget, 9.99 (as a bit pattern), 5. -/
def widget : ProductRequest :=
  { Name := "Widget", Description := "", Price := { bits := 4621813488089437307 }, Stock := 5 }

/-- The update request of the presenter tests: 99.99 (as a bit pattern), 10. -/
def updated : ProductRequest :=
  { Name := "Updated Product", Description := "Updated Description",
    Price := { bits := 4636736587667194511 }, Stock := 10 }

/-- A run in which the goroutine finishes 5 ns after the caller entered its
`select`. -/
def promptly : Runtime := { opAt := some 5, rand := 0 }

/-- A run in which the goroutine finishes one nanosecond after the timer. -/
def tooLate : Runtime := { opAt := some (operationTimeout + 1), rand := 0 }

/-- A context that is cancelled 2 ns after the caller entered its `select`. -/
def cancelledSoon : Context := { doneAt := some 2, reason := DoneReason.canceled }

/-- A request for the path `/products/1`. -/
def requestOne : EchoContext :=
  { Param := fun name => if name = "id" then "1" else "", ctx := context.Background }

/-- The validator that the server registers, in a build whose `required`
takes negative zero for the zero value. -/
def NewValidator : CustomValidator := { negativeZeroIsZero := true }

/-- A `PUT /products/1` or `POST /products` with the body `widget`. -/
def putWidget : EchoContext :=
  { requestOne with body := some widget, Validator := some NewValidator }

/-- The request `widget` with the price exactly 0. -/
def freeWidget : ProductRequest := { widget with Price := { bits := 0 } }

/-- A `POST /products` with the body `freeWidget`. -/
def postFreeWidget : EchoContext :=
  { requestOne with body := some freeWidget, Validator := some NewValidator }

/-- A `GET /products` with the given `page` and `limit` query strings. -/
def listRequest (page limit : String) : EchoContext :=
  { Param := fun _ => ""
    ctx := context.Background
    QueryParam := fun name => if name = "page" then page else if name = "limit" then limit else "" }

/-- A table of `n` live products with the ids 1 to `n`. -/
def tableOf (n : Nat) : DB :=
  { rows := (List.range n).map (fun i => { newProduct widget with ID := i + 1 })
    fault := none }

/-! ## The race of `select` -/

/-- `strconv.ParseUint` on a few strings: digits parse, the empty string, a
sign and a value of 33 bits do not. -/
theorem parseUint_samples :
    strconv.ParseUint "1" 32 = some 1 ∧ strconv.ParseUint "42" 32 = some 42 ∧
    strconv.ParseUint "" 32 = none ∧ strconv.ParseUint "-1" 32 = none ∧
    strconv.ParseUint "+1" 32 = none ∧ strconv.ParseUint "4294967295" 32 = some 4294967295 ∧
    strconv.ParseUint "4294967296" 32 = none := by
  decide

/-- `select` on a few runs: a prompt result is taken; with the result and the
cancellation both there on entry the pseudo-random number decides; without
result or cancellation the timer is taken. -/
theorem selectArm_samples :
    selectArm context.Background promptly = Arm.resultChan ∧
    selectArm { doneAt := some 0, reason := DoneReason.canceled } { opAt := some 0, rand := 1 } =
      Arm.ctxDone ∧
    selectArm { doneAt := some 0, reason := DoneReason.canceled } { opAt := some 0, rand := 0 } =
      Arm.resultChan ∧
    selectArm context.Background { opAt := none, rand := 7 } = Arm.timeAfter ∧
    selectArm context.Background tooLate = Arm.timeAfter := by
  decide

/-- When the timer is strictly the first of the three events, it is the only
case that can proceed, and `select` takes it. -/
theorem selectArm_of_timer_first (ctx : Context) (rt : Runtime)
    (hop : ∀ t, rt.opAt = some t → operationTimeout < t)
    (hctx : ∀ t, ctx.doneAt = some t → operationTimeout < t) :
    selectArm ctx rt = Arm.timeAfter := by
  obtain ⟨doneAt, reason⟩ := ctx
  obtain ⟨opAt, rand⟩ := rt
  cases opAt with
  | none =>
    cases doneAt with
    | none => simp [selectArm, readyArms, isReady, readyAt, commitAt, earlier, List.filter_cons]
    | some t =>
      have ht : operationTimeout < t := hctx t rfl
      have h1 : min operationTimeout t = operationTimeout := Nat.min_eq_left (Nat.le_of_lt ht)
      have h2 : ¬ t ≤ operationTimeout := Nat.not_le.mpr ht
      simp [selectArm, readyArms, isReady, readyAt, commitAt, earlier, List.filter_cons, h1, h2]
  | some u =>
    have hu : operationTimeout < u := hop u rfl
    have h3 : ¬ u ≤ operationTimeout := Nat.not_le.mpr hu
    cases doneAt with
    | none =>
      have h1 : min operationTimeout u = operationTimeout := Nat.min_eq_left (Nat.le_of_lt hu)
      simp [selectArm, readyArms, isReady, readyAt, commitAt, earlier, List.filter_cons, h1, h3]
    | some t =>
      have ht : operationTimeout < t := hctx t rfl
      have h1 : min operationTimeout t = operationTimeout := Nat.min_eq_left (Nat.le_of_lt ht)
      have h2 : ¬ t ≤ operationTimeout := Nat.not_le.mpr ht
      have h4 : min operationTimeout u = operationTimeout := Nat.min_eq_left (Nat.le_of_lt hu)
      simp [selectArm, readyArms, isReady, readyAt, commitAt, earlier, List.filter_cons, h1, h2, h3,
        h4]

/-- When the closing of `ctx.Done()` is strictly the first of the three events,
it is the only case that can proceed, and `select` takes it. -/
theorem selectArm_of_done_first (ctx : Context) (rt : Runtime) (t : Nat)
    (hdone : ctx.doneAt = some t) (htimer : t < operationTimeout)
    (hop : ∀ u, rt.opAt = some u → t < u) :
    selectArm ctx rt = Arm.ctxDone := by
  obtain ⟨doneAt, reason⟩ := ctx
  obtain ⟨opAt, rand⟩ := rt
  simp only at hdone hop
  subst hdone
  have h1 : min operationTimeout t = t := Nat.min_eq_right (Nat.le_of_lt htimer)
  have h2 : ¬ operationTimeout ≤ t := Nat.not_le.mpr htimer
  cases opAt with
  | none =>
    simp [selectArm, readyArms, isReady, readyAt, commitAt, earlier, List.filter_cons, h1, h2,
      Nat.mod_one]
  | some u =>
    have hu : t < u := hop u rfl
    have h3 : min t u = t := Nat.min_eq_left (Nat.le_of_lt hu)
    have h4 : ¬ u ≤ t := Nat.not_le.mpr hu
    simp [selectArm, readyArms, isReady, readyAt, commitAt, earlier, List.filter_cons, h1, h2,
      h3, h4, Nat.mod_one]

/-- On a channel without buffer a send blocks once the receiver is gone: the
capacity of `resultChan` is what keeps the producer from blocking. -/
theorem handOff_unbuffered_blocks (v : Result) :
    handOff false [v] (Chan.make 0) = none := by
  simp [handOff, Chan.send, Chan.make]

/-- A single send on a fresh channel of capacity one never blocks, whether or
not the caller still receives. -/
theorem handOff_single (waiting : Bool) (v : Result) :
    (handOff waiting [v] (Chan.make resultChanCap)).isSome = true := by
  cases waiting <;> simp [handOff, Chan.send, Chan.make, Chan.recv, resultChanCap]

/-! ## The presenter -/

/-- C1. In `CreateProduct` and `UpdateProduct`, when the `select` takes the
value from `resultChan`, the caller gets the operation's outcome verbatim: an
error `e` of the store call comes back as (nil, `e`); without error the caller
gets (`ToResponse` of the record the operation produced, nil). So whenever the
call returns on this branch, exactly one of projection and error is present. -/
theorem result_returned_verbatim {σ : Type} (p : productPresenter σ) (s : σ) (rt : Runtime)
    (ctx : Context) (id : Nat) (req : ProductRequest)
    (hwin : selectArm ctx rt = Arm.resultChan) :
    (∀ s1 created e, p.productRepo.Create s (newProduct req) = (s1, created, some e) →
      (p.CreateProduct s rt ctx req).2 = CallResult.returned none (some e)) ∧
    (∀ s1 created, p.productRepo.Create s (newProduct req) = (s1, created, none) →
      (p.CreateProduct s rt ctx req).2 =
        CallResult.returned (some created.ToResponse) none) ∧
    (∀ s1 found e, p.productRepo.GetByID s id = (s1, found, some e) →
      (p.UpdateProduct s rt ctx id req).2 = CallResult.returned none (some e)) ∧
    (∀ s1 found s2 saved e, p.productRepo.GetByID s id = (s1, some found, none) →
      p.productRepo.Update s1 (updateFields found req) = (s2, saved, some e) →
      (p.UpdateProduct s rt ctx id req).2 = CallResult.returned none (some e)) ∧
    (∀ s1 found s2 saved, p.productRepo.GetByID s id = (s1, some found, none) →
      p.productRepo.Update s1 (updateFields found req) = (s2, saved, none) →
      (p.UpdateProduct s rt ctx id req).2 =
        CallResult.returned (some saved.ToResponse) none) ∧
    (∃ response err, (p.CreateProduct s rt ctx req).2 = CallResult.returned response err) ∧
    (∀ response err, (p.CreateProduct s rt ctx req).2 = CallResult.returned response err →
      (response.isSome = true ↔ err = none)) ∧
    (∀ response err, (p.UpdateProduct s rt ctx id req).2 = CallResult.returned response err →
      (response.isSome = true ↔ err = none)) := by
  refine ⟨?_, ?_, ?_, ?_, ?_, ?_, ?_, ?_⟩
  · intro s1 created e h
    simp [productPresenter.CreateProduct, createGoroutine, await, hwin, h, onResult]
  · intro s1 created h
    simp [productPresenter.CreateProduct, createGoroutine, await, hwin, h, onResult]
  · intro s1 found e h
    simp [productPresenter.UpdateProduct, updateGoroutine, await, hwin, h, onResult]
  · intro s1 found s2 saved e h h2
    simp [productPresenter.UpdateProduct, updateGoroutine, await, hwin, h, h2, onResult]
  · intro s1 found s2 saved h h2
    simp [productPresenter.UpdateProduct, updateGoroutine, await, hwin, h, h2, onResult]
  · rcases hc : p.productRepo.Create s (newProduct req) with ⟨s1, created, err⟩
    cases err <;>
      simp [productPresenter.CreateProduct, createGoroutine, await, hwin, hc, onResult]
  · intro response err
    rcases hc : p.productRepo.Create s (newProduct req) with ⟨s1, created, err1⟩
    cases err1 <;>
      simp [productPresenter.CreateProduct, createGoroutine, await, hwin, hc, onResult]
    · rintro rfl rfl
      simp
    · rintro rfl rfl
      simp
  · intro response err
    rcases hg : p.productRepo.GetByID s id with ⟨s1, found, err1⟩
    cases err1 with
    | some e =>
      simp [productPresenter.UpdateProduct, updateGoroutine, await, hwin, hg, onResult]
      rintro rfl rfl
      simp
    | none =>
      cases found with
      | none => simp [productPresenter.UpdateProduct, updateGoroutine, await, hwin, hg]
      | some found =>
        rcases hu : p.productRepo.Update s1 (updateFields found req) with ⟨s2, saved, err2⟩
        cases err2 <;>
          simp [productPresenter.UpdateProduct, updateGoroutine, await, hwin, hg, hu, onResult]
        · rintro rfl rfl
          simp
        · rintro rfl rfl
          simp

/-- Witness of C1: a goroutine that finishes promptly over the empty in-memory
store. -/
theorem result_returned_verbatim_witness :
    selectArm context.Background promptly = Arm.resultChan ∧
    (simplePresenter.CreateProduct (NewSimpleProductRepository sampleClock) promptly
      context.Background widget).2 =
      CallResult.returned (some
        { ID := 1, Name := "Widget", Description := "",
          Price := { bits := 4621813488089437307 }, Stock := 5,
          CreatedAt := 1000, UpdatedAt := 1001 }) none :=
  ⟨by decide,
   (result_returned_verbatim simplePresenter (NewSimpleProductRepository sampleClock) promptly
      context.Background 1 widget (by decide)).2.1 _ _ rfl⟩

/-- Both calls give the timeout error when `select` takes the timer. -/
theorem timer_first_gives_timeout {σ : Type} (p : productPresenter σ) (s : σ) (rt : Runtime)
    (ctx : Context) (id : Nat) (req : ProductRequest)
    (hop : ∀ t, rt.opAt = some t → operationTimeout < t)
    (hctx : ∀ t, ctx.doneAt = some t → operationTimeout < t) :
    (p.CreateProduct s rt ctx req).2 =
      CallResult.returned none (some (errors.New "operation timeout")) ∧
    (p.UpdateProduct s rt ctx id req).2 =
      CallResult.returned none (some (errors.New "operation timeout")) := by
  have hwin := selectArm_of_timer_first ctx rt hop hctx
  exact ⟨by simp [productPresenter.CreateProduct, await, hwin],
    by simp [productPresenter.UpdateProduct, await, hwin]⟩

/-- C2. In `CreateProduct` and `UpdateProduct`, when the timer of `time.After`
fires strictly before the goroutine finishes (if it ever does) and strictly
before `ctx.Done()` is closed (if it ever is), the caller gets no projection and
the error "operation timeout", whatever the store calls of the operation
return; the operation still runs against the store. -/
theorem timeout_when_timer_first {σ : Type} (p : productPresenter σ) (s : σ) (rt : Runtime)
    (ctx : Context) (id : Nat) (req : ProductRequest)
    (hop : ∀ t, rt.opAt = some t → operationTimeout < t)
    (hctx : ∀ t, ctx.doneAt = some t → operationTimeout < t) :
    (p.CreateProduct s rt ctx req).2 =
      CallResult.returned none (some (errors.New "operation timeout")) ∧
    (p.UpdateProduct s rt ctx id req).2 =
      CallResult.returned none (some (errors.New "operation timeout")) ∧
    (errors.New "operation timeout").Error = "operation timeout" ∧
    (p.CreateProduct s rt ctx req).1 = (p.productRepo.Create s (newProduct req)).1 := by
  have hwin := selectArm_of_timer_first ctx rt hop hctx
  refine ⟨?_, ?_, rfl, ?_⟩
  · simp [productPresenter.CreateProduct, await, hwin]
  · simp [productPresenter.UpdateProduct, await, hwin]
  · simp [productPresenter.CreateProduct, createGoroutine]

/-- Witness of C2: the create succeeds in the in-memory store one nanosecond
after the timer, and the caller has the timeout error. -/
theorem timeout_when_timer_first_witness :
    (∀ t, tooLate.opAt = some t → operationTimeout < t) ∧
    (∀ t, context.Background.doneAt = some t → operationTimeout < t) ∧
    (simplePresenter.CreateProduct (NewSimpleProductRepository sampleClock) tooLate
      context.Background widget).2 =
      CallResult.returned none (some (Error.errorString "operation timeout")) ∧
    (simplePresenter.CreateProduct (NewSimpleProductRepository sampleClock) tooLate
      context.Background widget).1.products.length = 1 :=
  ⟨(by intro t h; cases h; exact Nat.lt_succ_self _),
   (by intro t h; cases h),
   (timeout_when_timer_first simplePresenter (NewSimpleProductRepository sampleClock) tooLate
      context.Background 1 widget (by intro t h; cases h; exact Nat.lt_succ_self _)
      (by intro t h; cases h)).1,
   rfl⟩

/-- C3. In `CreateProduct` and `UpdateProduct`, when `ctx.Done()` is closed
strictly before the timer fires and strictly before the goroutine finishes, the
caller gets no projection and `ctx.Err()`. For every context, cancelled or
past a deadline, `ctx.Err()` differs from the timeout error, as a value and in
its text. -/
theorem cancellation_when_done_first {σ : Type} (p : productPresenter σ) (s : σ)
    (rt : Runtime) (ctx : Context) (id : Nat) (req : ProductRequest) (t : Nat)
    (hdone : ctx.doneAt = some t) (htimer : t < operationTimeout)
    (hop : ∀ u, rt.opAt = some u → t < u) :
    (p.CreateProduct s rt ctx req).2 = CallResult.returned none (some ctx.Err) ∧
    (p.UpdateProduct s rt ctx id req).2 = CallResult.returned none (some ctx.Err) ∧
    (∀ c : Context, c.Err ≠ errors.New "operation timeout" ∧
      c.Err.Error ≠ (errors.New "operation timeout").Error) ∧
    ({ doneAt := some t, reason := DoneReason.deadline } : Context).Err =
      context.DeadlineExceeded := by
  have hwin := selectArm_of_done_first ctx rt t hdone htimer hop
  refine ⟨?_, ?_, ?_, rfl⟩
  · simp [productPresenter.CreateProduct, await, hwin]
  · simp [productPresenter.UpdateProduct, await, hwin]
  · intro c
    obtain ⟨doneAt, reason⟩ := c
    cases reason <;>
      simp [Context.Err, context.Canceled, context.DeadlineExceeded, errors.New, Error.Error]

/-- Witness of C3: a context cancelled after 2 ns, a goroutine that finishes
after 5 ns. -/
theorem cancellation_when_done_first_witness :
    cancelledSoon.doneAt = some 2 ∧ 2 < operationTimeout ∧
    (∀ u, promptly.opAt = some u → 2 < u) ∧
    (simplePresenter.UpdateProduct (NewSimpleProductRepository sampleClock) promptly
      cancelledSoon 1 widget).2 =
      CallResult.returned none (some (Error.errorString "context canceled")) :=
  ⟨rfl, (by decide), (by intro u h; cases h; decide),
   (cancellation_when_done_first simplePresenter (NewSimpleProductRepository sampleClock)
      promptly cancelledSoon 1 widget 2 rfl (by decide)
      (by intro u h; cases h; decide)).2.1⟩

/-- C4. The producer goroutine of `CreateProduct` and of `UpdateProduct` never
blocks on its hand-off: `resultChan` has capacity one; on the paths store
success, store error and early return after a failed fetch the goroutine sends
exactly one value (the outcome of the store call); on no path does it send
more than one; and its sends on the fresh channel proceed whether the caller
still receives (`waiting = true`) or has returned on cancellation or timeout. -/
theorem producer_never_blocks {σ : Type} (p : productPresenter σ) (s : σ) (id : Nat)
    (req : ProductRequest) (waiting : Bool) :
    resultChanCap = 1 ∧
    (∀ s1 created err, p.productRepo.Create s (newProduct req) = (s1, created, err) →
      (createGoroutine p s req).sends = [{ product := some created, err := err }]) ∧
    (∀ s1 found e, p.productRepo.GetByID s id = (s1, found, some e) →
      (updateGoroutine p s id req).sends = [{ product := none, err := some e }]) ∧
    (∀ s1 found s2 saved err, p.productRepo.GetByID s id = (s1, some found, none) →
      p.productRepo.Update s1 (updateFields found req) = (s2, saved, err) →
      (updateGoroutine p s id req).sends = [{ product := some saved, err := err }]) ∧
    (createGoroutine p s req).sends.length = 1 ∧
    (updateGoroutine p s id req).sends.length ≤ 1 ∧
    ((updateGoroutine p s id req).panicked = false →
      (updateGoroutine p s id req).sends.length = 1) ∧
    (handOff waiting (createGoroutine p s req).sends (Chan.make resultChanCap)).isSome = true ∧
    (handOff waiting (updateGoroutine p s id req).sends (Chan.make resultChanCap)).isSome =
      true := by
  have hcreate : ∃ v, (createGoroutine p s req).sends = [v] := by
    rcases hc : p.productRepo.Create s (newProduct req) with ⟨s1, created, err⟩
    exact ⟨{ product := some created, err := err }, by simp [createGoroutine, hc]⟩
  have hupdate : (updateGoroutine p s id req).sends = [] ∧
        (updateGoroutine p s id req).panicked = true ∨
      ∃ v, (updateGoroutine p s id req).sends = [v] := by
    rcases hg : p.productRepo.GetByID s id with ⟨s1, found, err1⟩
    cases err1 with
    | some e =>
      exact Or.inr ⟨{ product := none, err := some e }, by simp [updateGoroutine, hg]⟩
    | none =>
      cases found with
      | none => exact Or.inl (by simp [updateGoroutine, hg])
      | some found =>
        rcases hu : p.productRepo.Update s1 (updateFields found req) with ⟨s2, saved, err2⟩
        exact Or.inr ⟨{ product := some saved, err := err2 },
          by simp [updateGoroutine, hg, hu]⟩
  refine ⟨rfl, ?_, ?_, ?_, ?_, ?_, ?_, ?_, ?_⟩
  · intro s1 created err h
    simp [createGoroutine, h]
  · intro s1 found e h
    simp [updateGoroutine, h]
  · intro s1 found s2 saved err h h2
    simp [updateGoroutine, h, h2]
  · obtain ⟨v, hv⟩ := hcreate
    simp [hv]
  · rcases hupdate with ⟨h, _⟩ | ⟨v, hv⟩
    · simp [h]
    · simp [hv]
  · intro hp
    rcases hupdate with ⟨_, h⟩ | ⟨v, hv⟩
    · rw [h] at hp
      cases hp
    · simp [hv]
  · obtain ⟨v, hv⟩ := hcreate
    rw [hv]
    exact handOff_single waiting v
  · rcases hupdate with ⟨h, _⟩ | ⟨v, hv⟩
    · rw [h]
      simp [handOff]
    · rw [hv]
      exact handOff_single waiting v

/-- Witness of C4: the update of an absent id over a store whose `GetByID`
fails; the goroutine returns early after one send, which proceeds although the
caller is gone. -/
theorem producer_never_blocks_witness :
    (updateGoroutine
      ({ productRepo :=
          { simpleRepo with
            GetByID := fun r _ => (r, none, some (errors.New "record not found")) } } :
        productPresenter SimpleProductRepository)
      (NewSimpleProductRepository sampleClock) 1 widget).sends =
      [{ product := none, err := some (Error.errorString "record not found") }] :=
  (producer_never_blocks _ (NewSimpleProductRepository sampleClock) 1 widget false).2.2.1
    _ none _ rfl

/-- C5. `GetProduct`, `GetProducts` and `DeleteProduct` of the presenter do not
look at the context: for every context, each makes its one store call and
returns what that call returned, records through `ToResponse` and the error
unchanged; on an error the payload is empty. -/
theorem reads_and_delete_are_synchronous {σ : Type} (p : productPresenter σ) (s : σ)
    (ctx : Context) (id : Nat) (page limit : Int) :
    p.GetProduct s ctx id =
      ((p.productRepo.GetByID s id).1,
        (match (p.productRepo.GetByID s id).2.2 with
          | some _ => none
          | none => (p.productRepo.GetByID s id).2.1.map Product.ToResponse),
        (p.productRepo.GetByID s id).2.2) ∧
    p.GetProducts s ctx page limit =
      ((p.productRepo.GetAll s page limit).1,
        (match (p.productRepo.GetAll s page limit).2.2.2 with
          | some _ => []
          | none => (p.productRepo.GetAll s page limit).2.1.map Product.ToResponse),
        (match (p.productRepo.GetAll s page limit).2.2.2 with
          | some _ => 0
          | none => (p.productRepo.GetAll s page limit).2.2.1),
        (p.productRepo.GetAll s page limit).2.2.2) ∧
    p.DeleteProduct s ctx id = p.productRepo.Delete s id ∧
    p.GetProduct s ctx id = p.GetProduct s context.Background id ∧
    p.GetProducts s ctx page limit = p.GetProducts s context.Background page limit ∧
    p.DeleteProduct s ctx id = p.DeleteProduct s context.Background id := by
  refine ⟨?_, ?_, rfl, rfl, rfl, rfl⟩
  · rcases hg : p.productRepo.GetByID s id with ⟨s1, found, err⟩
    cases err with
    | some e => simp [productPresenter.GetProduct, hg]
    | none => cases found <;> simp [productPresenter.GetProduct, hg]
  · rcases hg : p.productRepo.GetAll s page limit with ⟨s1, products, total, err⟩
    cases err <;> simp [productPresenter.GetProducts, hg]

/-! ## The in-memory store -/

/-- The loop of `Update` leaves the ids of the slice as they are. -/
theorem replaceFirst_ids (product : Product) (l : List Product) :
    (replaceFirst product l).map Product.ID = l.map Product.ID := by
  induction l with
  | nil => rfl
  | cons p rest ih =>
    by_cases h : p.ID = product.ID
    · simp [replaceFirst, h]
    · simp [replaceFirst, h, ih]

/-- The loop of `Update` on a slice whose first record with the id is `old`. -/
theorem replaceFirst_split (product old : Product) (before after : List Product)
    (hold : old.ID = product.ID) (hbefore : ∀ q ∈ before, q.ID ≠ product.ID) :
    replaceFirst product (before ++ old :: after) = before ++ product :: after := by
  induction before with
  | nil => simp [replaceFirst, hold]
  | cons q rest ih =>
    have hq : q.ID ≠ product.ID := hbefore q (List.mem_cons_self _ _)
    have hrest : ∀ x ∈ rest, x.ID ≠ product.ID :=
      fun x hx => hbefore x (List.mem_cons_of_mem _ hx)
    simp [replaceFirst, hq, ih hrest]

/-- The lookup of `GetByID` on a slice whose first record with the id is
`found`. -/
theorem find_split (id : Nat) (found : Product) (before after : List Product)
    (hfound : found.ID = id) (hbefore : ∀ q ∈ before, q.ID ≠ id) :
    (before ++ found :: after).find? (fun product => product.ID == id) = some found := by
  induction before with
  | nil => simp [hfound]
  | cons q rest ih =>
    have hq : q.ID ≠ id := hbefore q (List.mem_cons_self _ _)
    have hrest : ∀ x ∈ rest, x.ID ≠ id := fun x hx => hbefore x (List.mem_cons_of_mem _ hx)
    have := ih hrest
    simp [hq] at this ⊢
    exact this

/-- Cutting the first record with an id out of the slice leaves the lookup of
every other id as it was. -/
theorem find_eraseP_other (id other : Nat) (hne : other ≠ id) (l : List Product) :
    (l.eraseP (fun product => product.ID == id)).find? (fun product => product.ID == other) =
      l.find? (fun product => product.ID == other) := by
  induction l with
  | nil => rfl
  | cons p rest ih =>
    by_cases h : p.ID = id
    · have hb : (p.ID == id) = true := by simp [h]
      have hb2 : (p.ID == other) = false := by
        simp only [beq_eq_false_iff_ne, ne_eq]
        exact fun h2 => hne (h2.symm.trans h)
      rw [List.eraseP_cons_of_pos (by simpa using hb), List.find?_cons_of_neg _ (by simp [hb2])]
    · have hb : ¬ (p.ID == id) = true := by simp [h]
      rw [List.eraseP_cons_of_neg (by simpa using hb)]
      by_cases h2 : p.ID = other
      · rw [List.find?_cons_of_pos _ (by simp [h2]), List.find?_cons_of_pos _ (by simp [h2])]
      · rw [List.find?_cons_of_neg _ (by simp [h2]), List.find?_cons_of_neg _ (by simp [h2]), ih]

/-- When the ids are strictly increasing, cutting the first record with an id
out of the slice leaves no record with that id. -/
theorem find_eraseP_same (id : Nat) (l : List Product)
    (hl : (l.map Product.ID).Pairwise (fun a b => a < b)) :
    (l.eraseP (fun product => product.ID == id)).find? (fun product => product.ID == id) =
      none := by
  induction l with
  | nil => rfl
  | cons p rest ih =>
    simp only [List.map_cons, List.pairwise_cons] at hl
    by_cases h : p.ID = id
    · simp only [List.eraseP_cons, h, beq_self_eq_true, cond_true, List.find?_eq_none]
      intro x hx hxid
      have hlt := hl.1 x.ID (List.mem_map_of_mem _ hx)
      have hxid2 : x.ID = id := by simpa using hxid
      omega
    · have := ih hl.2
      simp [List.eraseP_cons, h, this]

/-- Each mutating call keeps the ids increasing and below the counter, and a
`Create` advances the counter by one, as long as the counter does not wrap. -/
theorem counterAhead_apply (r : SimpleProductRepository) (op : StoreOp)
    (hr : CounterAhead r) (hroom : r.nextID + creations [op] < 2 ^ uintBits) :
    CounterAhead (op.apply r) ∧ (op.apply r).nextID = r.nextID + creations [op] := by
  obtain ⟨hinc, hbelow⟩ := hr
  cases op with
  | create product =>
    have hroom1 : r.nextID + 1 < 2 ^ uintBits := by simpa [creations] using hroom
    refine ⟨⟨?_, ?_⟩, ?_⟩
    · simp only [StoreOp.apply, SimpleProductRepository.Create, Clock.Now, List.map_append,
        List.map_cons, List.map_nil]
      rw [List.pairwise_append]
      refine ⟨hinc, by simp, ?_⟩
      intro a ha b hb
      simp only [List.mem_singleton] at hb
      subst hb
      obtain ⟨q, hq, rfl⟩ := List.mem_map.mp ha
      exact hbelow q hq
    · intro q hq
      simp only [StoreOp.apply, SimpleProductRepository.Create, Clock.Now,
        List.mem_append, List.mem_singleton] at hq ⊢
      rw [Nat.mod_eq_of_lt hroom1]
      rcases hq with hq | rfl
      · exact Nat.lt_succ_of_lt (hbelow q hq)
      · exact Nat.lt_succ_self _
    · simp only [StoreOp.apply, SimpleProductRepository.Create, Clock.Now, creations]
      exact Nat.mod_eq_of_lt hroom1
  | update product =>
    by_cases hany : r.products.any (fun p => p.ID == product.ID) = true
    · refine ⟨⟨?_, ?_⟩, ?_⟩
      · simp only [StoreOp.apply, SimpleProductRepository.Update, hany, if_true, Clock.Now]
        rw [replaceFirst_ids]
        exact hinc
      · intro q hq
        simp only [StoreOp.apply, SimpleProductRepository.Update, hany, if_true,
          Clock.Now] at hq ⊢
        have hmem := List.mem_map_of_mem Product.ID hq
        rw [replaceFirst_ids] at hmem
        obtain ⟨q0, hq0, hq0id⟩ := List.mem_map.mp hmem
        rw [← hq0id]
        exact hbelow q0 hq0
      · simp [StoreOp.apply, SimpleProductRepository.Update, hany, Clock.Now, creations]
    · refine ⟨⟨?_, ?_⟩, ?_⟩
      · simpa [StoreOp.apply, SimpleProductRepository.Update, hany] using hinc
      · simpa [StoreOp.apply, SimpleProductRepository.Update, hany] using hbelow
      · simp [StoreOp.apply, SimpleProductRepository.Update, hany, creations]
  | delete id =>
    refine ⟨⟨?_, ?_⟩, ?_⟩
    · simp only [StoreOp.apply, SimpleProductRepository.Delete]
      exact List.Pairwise.sublist ((List.eraseP_sublist _).map _) hinc
    · intro q hq
      simp only [StoreOp.apply, SimpleProductRepository.Delete] at hq ⊢
      exact hbelow q ((List.eraseP_sublist _).subset hq)
    · simp [StoreOp.apply, SimpleProductRepository.Delete, creations]

/-- The count of `Create` calls is additive over concatenation. -/
theorem creations_append (xs ys : List StoreOp) :
    creations (xs ++ ys) = creations xs + creations ys := by
  induction xs with
  | nil => simp [creations]
  | cons op rest ih =>
    cases op
    · show creations (rest ++ ys) + 1 = creations rest + 1 + creations ys
      omega
    · exact ih
    · exact ih

/-- A sequence of calls keeps the ids increasing and below the counter, and the
counter counts the `Create` calls, as long as it does not wrap. -/
theorem counterAhead_foldl (ops : List StoreOp) (r : SimpleProductRepository)
    (hr : CounterAhead r) (hroom : r.nextID + creations ops < 2 ^ uintBits) :
    CounterAhead (ops.foldl StoreOp.apply r) ∧
      (ops.foldl StoreOp.apply r).nextID = r.nextID + creations ops := by
  induction ops generalizing r with
  | nil => exact ⟨hr, by simp [creations]⟩
  | cons op rest ih =>
    have hsplit : creations (op :: rest) = creations [op] + creations rest :=
      creations_append [op] rest
    have hstep := counterAhead_apply r op hr (by omega)
    have := ih (op.apply r) hstep.1 (by rw [hstep.2]; omega)
    refine ⟨this.1, ?_⟩
    simp only [List.foldl_cons]
    rw [this.2, hstep.2]
    omega

/-- The store reached from the empty one by calls of which fewer than
`2^64 - 1` are `Create`: ids increasing, below the counter, counter exact. -/
theorem counterAhead_history (clock : Clock) (ops : List StoreOp)
    (hops : creations ops < 2 ^ uintBits - 1) :
    CounterAhead (history clock ops) ∧ (history clock ops).nextID = 1 + creations ops := by
  have hinit : CounterAhead (NewSimpleProductRepository clock) := by
    simp [CounterAhead, NewSimpleProductRepository]
  have hroom : (NewSimpleProductRepository clock).nextID + creations ops < 2 ^ uintBits := by
    simp only [NewSimpleProductRepository]
    omega
  exact counterAhead_foldl ops _ hinit hroom

/-- What `CreateProduct` does over the in-memory store when the caller takes
the goroutine's result. -/
theorem simple_create (r : SimpleProductRepository) (rt : Runtime) (ctx : Context)
    (req : ProductRequest) (hwin : selectArm ctx rt = Arm.resultChan) :
    simplePresenter.CreateProduct r rt ctx req =
      ({ products := r.products ++
            [{ ID := r.nextID
               Name := req.Name
               Description := req.Description
               Price := req.Price
               Stock := req.Stock
               CreatedAt := r.clock.readings r.clock.reads
               UpdatedAt := r.clock.readings (r.clock.reads + 1)
               DeletedAt := none }]
         nextID := (r.nextID + 1) % 2 ^ uintBits
         clock := { r.clock with reads := r.clock.reads + 1 + 1 } },
       CallResult.returned (some
          { ID := r.nextID
            Name := req.Name
            Description := req.Description
            Price := req.Price
            Stock := req.Stock
            CreatedAt := r.clock.readings r.clock.reads
            UpdatedAt := r.clock.readings (r.clock.reads + 1) }) none) := by
  simp [productPresenter.CreateProduct, createGoroutine, await, hwin, onResult, simplePresenter,
    simpleRepo, SimpleProductRepository.Create, Clock.Now, newProduct, Product.ToResponse]

/-- What `GetProduct` does over the in-memory store. -/
theorem simple_get (r : SimpleProductRepository) (ctx : Context) (id : Nat) :
    simplePresenter.GetProduct r ctx id =
      (r, (r.products.find? (fun product => product.ID == id)).map Product.ToResponse, none) := by
  cases h : r.products.find? (fun product => product.ID == id) <;>
    simp [productPresenter.GetProduct, simplePresenter, simpleRepo,
      SimpleProductRepository.GetByID, h]

/-- C6. Over the in-memory store, in every state reached from the empty store
by calls of which fewer than `2^64 - 1` are `Create` (the `uint` counter has
not wrapped): a `CreateProduct(req)` whose result the caller takes returns a
projection `created` with the request's name, description, price and stock;
`GetProduct(created.ID)` then returns that projection; `created.ID` differs
from the id of every record the store held at any earlier moment, deleted
since or not; and a second create with the same payload gets another id. -/
theorem create_then_get (clock : Clock) (ops : List StoreOp) (rt : Runtime) (ctx : Context)
    (req : ProductRequest) (hops : creations ops < 2 ^ uintBits - 1)
    (hwin : selectArm ctx rt = Arm.resultChan) :
    ∃ created : ProductResponse,
      (simplePresenter.CreateProduct (history clock ops) rt ctx req).2 =
        CallResult.returned (some created) none ∧
      created.Name = req.Name ∧ created.Description = req.Description ∧
      created.Price = req.Price ∧ created.Stock = req.Stock ∧
      (∀ ctx2 : Context,
        (simplePresenter.GetProduct
          (simplePresenter.CreateProduct (history clock ops) rt ctx req).1 ctx2 created.ID).2 =
          (some created, none)) ∧
      (∀ earlier later : List StoreOp, ops = earlier ++ later →
        ∀ product ∈ (history clock earlier).products, product.ID ≠ created.ID) ∧
      (∀ (rt2 : Runtime) (ctx2 : Context), selectArm ctx2 rt2 = Arm.resultChan →
        ∃ second : ProductResponse,
          (simplePresenter.CreateProduct
            (simplePresenter.CreateProduct (history clock ops) rt ctx req).1 rt2 ctx2 req).2 =
            CallResult.returned (some second) none ∧
          second.ID ≠ created.ID) := by
  obtain ⟨⟨hinc, hbelow⟩, hnext⟩ := counterAhead_history clock ops hops
  have hpow : 2 ^ uintBits = 18446744073709551616 := by norm_num [uintBits]
  rw [hpow] at hops
  refine ⟨_, by rw [simple_create _ _ _ _ hwin], rfl, rfl, rfl, rfl, ?_, ?_, ?_⟩
  · intro ctx2
    rw [simple_create _ _ _ _ hwin, simple_get]
    have hfind := find_split (history clock ops).nextID
      { ID := (history clock ops).nextID
        Name := req.Name
        Description := req.Description
        Price := req.Price
        Stock := req.Stock
        CreatedAt := (history clock ops).clock.readings (history clock ops).clock.reads
        UpdatedAt := (history clock ops).clock.readings ((history clock ops).clock.reads + 1)
        DeletedAt := none }
      (history clock ops).products [] rfl
      (fun q hq => Nat.ne_of_lt (hbelow q hq))
    show (Option.map Product.ToResponse (List.find? _ _), none) = _
    rw [hfind]
    rfl
  · intro earlier later hsplit product hproduct
    have hcount : creations ops = creations earlier + creations later := by
      rw [hsplit, creations_append]
    obtain ⟨⟨_, hbelow2⟩, hnext2⟩ := counterAhead_history clock earlier (by rw [hpow]; omega)
    have hlt := hbelow2 product hproduct
    show product.ID ≠ (history clock ops).nextID
    omega
  · intro rt2 ctx2 hwin2
    rw [simple_create _ _ _ _ hwin, simple_create _ _ _ _ hwin2]
    refine ⟨_, rfl, ?_⟩
    show ((history clock ops).nextID + 1) % 2 ^ uintBits ≠ (history clock ops).nextID
    rw [hpow]
    omega

/-- Witness of C6: a store in which a record was created and deleted. -/
theorem create_then_get_witness :
    creations [StoreOp.create (newProduct updated), StoreOp.delete 1] < 2 ^ uintBits - 1 ∧
    selectArm context.Background promptly = Arm.resultChan ∧
    ∃ created : ProductResponse,
      (simplePresenter.CreateProduct
        (history sampleClock [StoreOp.create (newProduct updated), StoreOp.delete 1]) promptly
        context.Background widget).2 = CallResult.returned (some created) none ∧
      created.Name = "Widget" :=
  ⟨(by decide), (by decide),
   (create_then_get sampleClock [StoreOp.create (newProduct updated), StoreOp.delete 1]
      promptly context.Background widget (by decide) (by decide)).imp
      (fun _ h => ⟨h.1, h.2.1⟩)⟩

/-- What `UpdateProduct` does over the in-memory store when the record exists
and the caller takes the goroutine's result. -/
theorem simple_update (r : SimpleProductRepository) (rt : Runtime) (ctx : Context) (id : Nat)
    (old : Product) (req : ProductRequest)
    (hold : r.products.find? (fun product => product.ID == id) = some old)
    (hwin : selectArm ctx rt = Arm.resultChan) :
    simplePresenter.UpdateProduct r rt ctx id req =
      ({ r with
          products := replaceFirst
            { updateFields old req with UpdatedAt := r.clock.readings r.clock.reads } r.products
          clock := { r.clock with reads := r.clock.reads + 1 } },
       CallResult.returned (some
          (Product.ToResponse
            { updateFields old req with UpdatedAt := r.clock.readings r.clock.reads })) none) := by
  have hmem : old ∈ r.products := List.mem_of_find?_eq_some hold
  have hany : r.products.any (fun p => p.ID == (updateFields old req).ID) = true := by
    rw [List.any_eq_true]
    exact ⟨old, hmem, by simp [updateFields]⟩
  simp [productPresenter.UpdateProduct, updateGoroutine, await, hwin, onResult, simplePresenter,
    simpleRepo, SimpleProductRepository.GetByID, SimpleProductRepository.Update, hold, hany,
    Clock.Now]

/-- C7. Over the in-memory store, in every state: when a record `old` with
identity `id` exists, an `UpdateProduct(id, req)` whose result the caller takes
returns a projection with the request's name, description, price and stock and
with the id and `created_at` of `old`; `GetProduct(id)` then returns the same
projection; and in the store exactly the slot of `old` has changed. -/
theorem update_then_get (r : SimpleProductRepository) (rt : Runtime) (ctx ctx2 : Context)
    (id : Nat) (old : Product) (req : ProductRequest)
    (hold : r.products.find? (fun product => product.ID == id) = some old)
    (hwin : selectArm ctx rt = Arm.resultChan) :
    ∃ (response : ProductResponse) (saved : Product) (before after : List Product),
      (simplePresenter.UpdateProduct r rt ctx id req).2 =
        CallResult.returned (some response) none ∧
      (simplePresenter.GetProduct (simplePresenter.UpdateProduct r rt ctx id req).1 ctx2 id).2 =
        (some response, none) ∧
      response.Name = req.Name ∧ response.Description = req.Description ∧
      response.Price = req.Price ∧ response.Stock = req.Stock ∧
      response.ID = id ∧ old.ID = id ∧ response.CreatedAt = old.CreatedAt ∧
      saved.ToResponse = response ∧
      r.products = before ++ old :: after ∧
      (simplePresenter.UpdateProduct r rt ctx id req).1.products = before ++ saved :: after ∧
      (simplePresenter.UpdateProduct r rt ctx id req).1.nextID = r.nextID := by
  obtain ⟨hid, before, after, hsplit, hbefore⟩ := List.find?_eq_some.mp hold
  have hid2 : old.ID = id := by simpa using hid
  have hbefore2 : ∀ q ∈ before, q.ID ≠ id := by
    intro q hq
    simpa using hbefore q hq
  have hreplace : replaceFirst
      { updateFields old req with UpdatedAt := r.clock.readings r.clock.reads } r.products =
      before ++ { updateFields old req with UpdatedAt := r.clock.readings r.clock.reads } ::
        after := by
    rw [hsplit]
    exact replaceFirst_split _ old before after (by simp [updateFields])
      (by simpa [updateFields, hid2] using hbefore2)
  refine ⟨_, { updateFields old req with UpdatedAt := r.clock.readings r.clock.reads },
    before, after, by rw [simple_update r rt ctx id old req hold hwin], ?_, rfl, rfl, rfl, rfl,
    hid2, hid2, rfl, rfl, hsplit, ?_, ?_⟩
  · rw [simple_update r rt ctx id old req hold hwin, simple_get]
    show (Option.map Product.ToResponse (List.find? _ (replaceFirst _ _)), none) = _
    rw [hreplace, find_split id _ before after (by simpa [updateFields] using hid2) hbefore2]
    rfl
  · rw [simple_update r rt ctx id old req hold hwin]
    exact hreplace
  · rw [simple_update r rt ctx id old req hold hwin]

/-- Witness of C7: the update of the presenter tests, on the one record of the
store. -/
theorem update_then_get_witness :
    (history sampleClock [StoreOp.create (newProduct widget)]).products.find?
      (fun product => product.ID == 1) =
      some { ID := 1, Name := "Widget", Description := "",
             Price := { bits := 4621813488089437307 }, Stock := 5,
             CreatedAt := 1000, UpdatedAt := 1001, DeletedAt := none } ∧
    selectArm context.Background promptly = Arm.resultChan ∧
    ∃ response : ProductResponse,
      (simplePresenter.UpdateProduct (history sampleClock [StoreOp.create (newProduct widget)])
        promptly context.Background 1 updated).2 = CallResult.returned (some response) none ∧
      response.Name = "Updated Product" ∧ response.ID = 1 ∧ response.CreatedAt = 1000 :=
  ⟨rfl, (by decide),
   (update_then_get (history sampleClock [StoreOp.create (newProduct widget)]) promptly
      context.Background context.Background 1 _ updated rfl (by decide)).imp
      (fun _ h => by
        obtain ⟨_, _, _, h1, _, h3, _, _, _, h7, _, h9, _⟩ := h
        exact ⟨h1, h3, h7, h9⟩)⟩

/-- C8. Over the in-memory store, in every state reached from the empty store
by calls of which fewer than `2^64 - 1` are `Create`: for the id of an
existing record, `DeleteProduct(id)` returns no error and takes one record out
of the store; `GetProduct(id)` then returns a nil projection and a nil error;
and `GetProduct` of every other id returns what it returned before. -/
theorem delete_then_get (clock : Clock) (ops : List StoreOp) (ctx ctx2 : Context) (id : Nat)
    (hops : creations ops < 2 ^ uintBits - 1)
    (hlive : ∃ product ∈ (history clock ops).products, product.ID = id) :
    (simplePresenter.DeleteProduct (history clock ops) ctx id).2 = none ∧
    (simplePresenter.DeleteProduct (history clock ops) ctx id).1.products.length + 1 =
      (history clock ops).products.length ∧
    (simplePresenter.GetProduct
      (simplePresenter.DeleteProduct (history clock ops) ctx id).1 ctx2 id).2 = (none, none) ∧
    (∀ other : Nat, other ≠ id →
      (simplePresenter.GetProduct
        (simplePresenter.DeleteProduct (history clock ops) ctx id).1 ctx2 other).2 =
        (simplePresenter.GetProduct (history clock ops) ctx2 other).2) := by
  obtain ⟨⟨hinc, _⟩, _⟩ := counterAhead_history clock ops hops
  obtain ⟨product, hmem, hid⟩ := hlive
  refine ⟨rfl, ?_, ?_, ?_⟩
  · show (List.eraseP _ (history clock ops).products).length + 1 = _
    rw [List.length_eraseP_of_mem hmem (by simp [hid])]
    have := List.length_pos_of_mem hmem
    omega
  · rw [simple_get]
    show (Option.map Product.ToResponse (List.find? _ (List.eraseP _ _)), none) = _
    rw [find_eraseP_same id _ hinc]
    rfl
  · intro other hne
    rw [simple_get, simple_get]
    show (Option.map Product.ToResponse (List.find? _ (List.eraseP _ _)), none) = _
    rw [find_eraseP_other id other hne]

/-- Witness of C8: two records, the first is deleted. -/
theorem delete_then_get_witness :
    creations [StoreOp.create (newProduct widget), StoreOp.create (newProduct updated)] <
      2 ^ uintBits - 1 ∧
    (∃ product ∈ (history sampleClock
        [StoreOp.create (newProduct widget), StoreOp.create (newProduct updated)]).products,
      product.ID = 1) ∧
    (simplePresenter.GetProduct
      (simplePresenter.DeleteProduct
        (history sampleClock
          [StoreOp.create (newProduct widget), StoreOp.create (newProduct updated)])
        context.Background 1).1 context.Background 1).2 = (none, none) :=
  ⟨(by decide), ⟨_, List.mem_cons_self _ _, rfl⟩,
   (delete_then_get sampleClock
      [StoreOp.create (newProduct widget), StoreOp.create (newProduct updated)]
      context.Background context.Background 1 (by decide)
      ⟨_, List.mem_cons_self _ _, rfl⟩).2.2.1⟩

/-! ## The handlers -/

/-- The id parameter of `requestOne` parses to 1. -/
theorem parseUint_requestOne : strconv.ParseUint (requestOne.Param "id") 32 = some 1 := by
  decide

/-- C9. `DELETE /products/1` over the in-memory store with no record 1, never
created or created and deleted: the store's `Delete` returns nil, the
presenter's `DeleteProduct` returns no error and the handler answers 200 with
"Product deleted successfully". Over this store the presenter's
`DeleteProduct` never returns an error and the handler never answers 404. -/
theorem delete_absent_answers_200 (clock : Clock) :
    (simplePresenter.DeleteProduct (NewSimpleProductRepository clock)
      context.Background 1).2 = none ∧
    (simpleHandler.DeleteProduct (NewSimpleProductRepository clock) requestOne).2 =
      { code := 200, body := Body.message "Product deleted successfully" } ∧
    (history clock [StoreOp.create (newProduct widget), StoreOp.delete 1]).products = [] ∧
    (simpleHandler.DeleteProduct
      (history clock [StoreOp.create (newProduct widget), StoreOp.delete 1]) requestOne).2 =
      { code := 200, body := Body.message "Product deleted successfully" } ∧
    (∀ (r : SimpleProductRepository) (ctx : Context) (id : Nat),
      (simplePresenter.DeleteProduct r ctx id).2 = none) ∧
    (∀ (r : SimpleProductRepository) (c : EchoContext),
      (simpleHandler.DeleteProduct r c).2.code ≠ http.StatusNotFound) := by
  refine ⟨rfl, ?_, ?_, ?_, fun _ _ _ => rfl, ?_⟩
  · simp [ProductHandler.DeleteProduct, parseUint_requestOne, simpleHandler, NewProductHandler,
      NewProductPresenter, productPresenter.DeleteProduct, simpleRepo,
      SimpleProductRepository.Delete, http.StatusOK]
  · simp [history, StoreOp.apply, SimpleProductRepository.Create,
      SimpleProductRepository.Delete, NewSimpleProductRepository, Clock.Now]
  · simp [ProductHandler.DeleteProduct, parseUint_requestOne, simpleHandler, NewProductHandler,
      NewProductPresenter, productPresenter.DeleteProduct, simpleRepo,
      SimpleProductRepository.Delete, http.StatusOK]
  · intro r c
    cases h : strconv.ParseUint (c.Param "id") 32 <;>
      simp [ProductHandler.DeleteProduct, h, simpleHandler, NewProductHandler,
        NewProductPresenter, productPresenter.DeleteProduct, simpleRepo,
        SimpleProductRepository.Delete, http.StatusOK, http.StatusNotFound,
        http.StatusBadRequest]

/-- C10. `GET /products/1` over the in-memory store with no record 1: the
presenter's `GetProduct` returns a nil projection with a nil error, and the
handler answers 200 with the body `null`. So does the handler over every
presenter whose `GetProduct` returns a nil projection with a nil error. -/
theorem get_absent_answers_200_null (clock : Clock) :
    (simplePresenter.GetProduct (NewSimpleProductRepository clock) context.Background 1).2 =
      (none, none) ∧
    (simpleHandler.GetProduct (NewSimpleProductRepository clock) requestOne).2 =
      { code := 200, body := Body.product none } ∧
    (simpleHandler.GetProduct
      (history clock [StoreOp.create (newProduct widget), StoreOp.delete 1]) requestOne).2 =
      { code := 200, body := Body.product none } ∧
    (∀ (π : Type) (presenter : ProductPresenter π) (s : π),
      ((NewProductHandler
        { presenter with GetProduct := fun s1 _ _ => (s1, none, none) }).GetProduct s
        requestOne).2 = { code := 200, body := Body.product none }) := by
  refine ⟨rfl, ?_, ?_, ?_⟩
  · simp [ProductHandler.GetProduct, parseUint_requestOne, simpleHandler, NewProductHandler,
      NewProductPresenter, productPresenter.GetProduct, simpleRepo,
      SimpleProductRepository.GetByID, NewSimpleProductRepository, http.StatusOK]
  · simp [ProductHandler.GetProduct, parseUint_requestOne, simpleHandler, NewProductHandler,
      NewProductPresenter, productPresenter.GetProduct, simpleRepo,
      SimpleProductRepository.GetByID, history, StoreOp.apply, SimpleProductRepository.Create,
      SimpleProductRepository.Delete, NewSimpleProductRepository, Clock.Now, http.StatusOK]
  · intro π presenter s
    simp [ProductHandler.GetProduct, parseUint_requestOne, NewProductHandler, http.StatusOK]

/-! ## Pagination -/

/-- `Atoi` gives 0 with every syntax error. -/
theorem atoi_malformed (q : String) (h : (strconv.Atoi q).2 = some NumError.malformed) :
    (strconv.Atoi q).1 = 0 := by
  unfold strconv.Atoi at h ⊢
  generalize splitSign q.data = sp at h ⊢
  obtain ⟨negative, digits⟩ := sp
  simp only at h ⊢
  split_ifs at h ⊢ <;> simp_all

/-- The page and the limit that the handler passes on are at least 1. -/
theorem params_positive (c : EchoContext) : 1 ≤ pageParam c ∧ 1 ≤ limitParam c := by
  unfold pageParam limitParam
  constructor <;> split_ifs <;> omega

/-- C11, as stated, fails: called with page 0 and limit -5, the presenter's
`GetProducts` hands 0 and -5 to the store, not 1 and 10. -/
theorem presenter_hands_on_unclamped :
    (productPresenter.GetProducts { productRepo := recordingRepo } [] context.Background
      0 (-5)).1 = [(0, -5)] ∧
    (productPresenter.GetProducts { productRepo := recordingRepo } [] context.Background
      0 (-5)).1 ≠ [(1, 10)] := by
  decide

/-- C11, amended. The presenter's `GetProducts` hands `page` and `limit` to the
store as it got them, for every integer `page` and `limit`; it is the
`GetProducts` handler that replaces a page below 1 by 1 and a limit below 1 by
10 before it calls the presenter, so that the store of the running service
sees a page and a limit of at least 1. -/
theorem presenter_hands_on_page_and_limit {σ : Type} (p : productPresenter σ) (s : σ)
    (calls : List (Int × Int)) (ctx : Context) (page limit : Int) (c : EchoContext) :
    (p.GetProducts s ctx page limit).1 = (p.productRepo.GetAll s page limit).1 ∧
    (p.GetProducts s ctx page limit).2.2.2 = (p.productRepo.GetAll s page limit).2.2.2 ∧
    (productPresenter.GetProducts { productRepo := recordingRepo } calls ctx page limit).1 =
      calls ++ [(page, limit)] ∧
    ((NewProductHandler (NewProductPresenter recordingRepo)).GetProducts calls c).1 =
      calls ++ [(pageParam c, limitParam c)] ∧
    1 ≤ pageParam c ∧ 1 ≤ limitParam c ∧
    pageParam c = (if 1 ≤ (strconv.Atoi (c.QueryParam "page")).1
      then (strconv.Atoi (c.QueryParam "page")).1 else 1) ∧
    limitParam c = (if 1 ≤ (strconv.Atoi (c.QueryParam "limit")).1
      then (strconv.Atoi (c.QueryParam "limit")).1 else 10) := by
  refine ⟨?_, ?_, rfl, rfl, (params_positive c).1, (params_positive c).2, ?_, ?_⟩
  · rcases hg : p.productRepo.GetAll s page limit with ⟨s1, products, total, err⟩
    cases err <;> simp [productPresenter.GetProducts, hg]
  · rcases hg : p.productRepo.GetAll s page limit with ⟨s1, products, total, err⟩
    cases err <;> simp [productPresenter.GetProducts, hg]
  · unfold pageParam
    split_ifs <;> first | rfl | omega
  · unfold limitParam
    split_ifs <;> first | rfl | omega

/-- An exact value inside the range of `int` is not changed by wrap-around. -/
theorem wrapInt_of_fits (x : Int) (hlow : -(2 ^ 63) ≤ x) (hhigh : x < 2 ^ 63) : wrapInt x = x := by
  unfold wrapInt intBits
  have h : (x + 2 ^ (64 - 1)) % 2 ^ 64 = x + 2 ^ (64 - 1) := by
    apply Int.emod_eq_of_lt <;> norm_num <;> omega
  rw [h]
  ring

/-- As long as the exact product fits an `int`, the offset of `GetAll` is the
exact `(page - 1) * limit`. -/
theorem pageOffset_exact (page limit : Int) (hpage : 1 ≤ page) (hlimit : 1 ≤ limit)
    (hfit : (page - 1) * limit < 2 ^ 63) :
    pageOffset page limit = (page - 1) * limit ∧ 0 ≤ (page - 1) * limit := by
  have hnonneg : 0 ≤ page - 1 := by omega
  have hprod : 0 ≤ (page - 1) * limit := Int.mul_nonneg hnonneg (by omega)
  have hle : page - 1 ≤ (page - 1) * limit := le_mul_of_one_le_right hnonneg hlimit
  have h1 : wrapInt (page - 1) = page - 1 :=
    wrapInt_of_fits _ (by norm_num; omega) (lt_of_le_of_lt hle hfit)
  unfold pageOffset
  rw [h1]
  exact ⟨wrapInt_of_fits _ (by norm_num; omega) hfit, hprod⟩

/-- C12, as stated, fails: page 4611686018427387905 and limit 2 are both at
least 1 and both an `int` (the handler parses the page from its query string
and passes it on), yet the offset that `GetAll` computes is
-9223372036854775808: negative, and not the exact 9223372036854775808. -/
theorem pageOffset_wraps :
    pageParam (listRequest "4611686018427387905" "2") = 4611686018427387905 ∧
    limitParam (listRequest "4611686018427387905" "2") = 2 ∧
    pageOffset 4611686018427387905 2 = -9223372036854775808 ∧
    pageOffset 4611686018427387905 2 ≠ (4611686018427387905 - 1) * 2 ∧
    pageOffset 4611686018427387905 2 < 0 := by
  decide

/-- C12, amended. For every page of at least 1 and limit of at least 1 whose
exact `(page - 1) * limit` fits an `int` (is below `2^63`), `GetAll` queries a
healthy store with the offset `(page - 1) * limit`, which is not negative, and
returns the live rows from that offset on, at most `limit` of them, together
with the count of all live rows; with 25 live rows and limit 10, page 1 gives
10 rows and page 3 gives 5, each with total 25. -/
theorem getAll_page (r : productRepository) (page limit : Int) (hpage : 1 ≤ page)
    (hlimit : 1 ≤ limit) (hfit : (page - 1) * limit < 2 ^ 63) (hfault : r.db.fault = none) :
    pageOffset page limit = (page - 1) * limit ∧ 0 ≤ pageOffset page limit ∧
    (r.GetAll page limit).2.1 =
      (r.db.live.drop ((page - 1) * limit).toNat).take limit.toNat ∧
    ((r.GetAll page limit).2.1.length : Int) ≤ limit ∧
    (r.GetAll page limit).2.2.1 = (r.db.live.length : Int) ∧
    (r.GetAll page limit).2.2.2 = none ∧
    (r.db.live.length = 25 → limit = 10 →
      (page = 1 → (r.GetAll page limit).2.1.length = 10) ∧
      (page = 3 → (r.GetAll page limit).2.1.length = 5) ∧
      (r.GetAll page limit).2.2.1 = 25) := by
  obtain ⟨hexact, hnonneg⟩ := pageOffset_exact page limit hpage hlimit hfit
  have hrows : (r.GetAll page limit).2.1 =
      (r.db.live.drop ((page - 1) * limit).toNat).take limit.toNat := by
    have hlim : 0 ≤ limit := by omega
    simp only [productRepository.GetAll, DB.Count, DB.Find, hfault, hexact, hlim, if_true]
    split_ifs with hpos
    · rfl
    · have hzero : (page - 1) * limit = 0 := by omega
      simp [hzero]
  have htotal : (r.GetAll page limit).2.2.1 = (r.db.live.length : Int) := by
    simp [productRepository.GetAll, DB.Count, DB.Find, hfault]
  refine ⟨hexact, by rw [hexact]; exact hnonneg, hrows, ?_, htotal, ?_, ?_⟩
  · rw [hrows, List.length_take]
    have : ((min limit.toNat (List.drop ((page - 1) * limit).toNat r.db.live).length : Nat) : Int)
        ≤ (limit.toNat : Int) := by
      exact_mod_cast Nat.min_le_left _ _
    rw [Int.toNat_of_nonneg (by omega)] at this
    exact this
  · simp [productRepository.GetAll, DB.Count, DB.Find, hfault]
  · intro hlen hten
    subst hten
    refine ⟨?_, ?_, ?_⟩
    · intro hone
      subst hone
      rw [hrows, List.length_take, List.length_drop, hlen]
      decide
    · intro hthree
      subst hthree
      rw [hrows, List.length_take, List.length_drop, hlen]
      decide
    · rw [htotal, hlen]
      rfl

/-- Witness of C12 amended: page 3 of a table of 25 products, limit 10. -/
theorem getAll_page_witness :
    (1 : Int) ≤ 3 ∧ (1 : Int) ≤ 10 ∧ ((3 : Int) - 1) * 10 < 2 ^ 63 ∧
    (tableOf 25).fault = none ∧
    (productRepository.GetAll { db := tableOf 25 } 3 10).2.1 =
      ((tableOf 25).live.drop (((3 : Int) - 1) * 10).toNat).take (10 : Int).toNat :=
  ⟨(by decide), (by decide), (by decide), rfl,
   (getAll_page { db := tableOf 25 } 3 10 (by decide) (by decide) (by decide) rfl).2.2.1⟩

/-! ## Validation -/

/-- What the struct tags of `ProductRequest` accept: a name that is not empty,
a price that is not the zero value and not below 0, a stock not below 0. -/
theorem validate_passes_iff (cv : CustomValidator) (req : ProductRequest) :
    cv.Validate req = none ↔
      req.Name ≠ "" ∧ requiredFloat cv req.Price = true ∧ req.Price.geZero = true ∧
        0 ≤ req.Stock := by
  have hnil : cv.Validate req = none ↔ fieldErrors cv req = [] := by
    unfold CustomValidator.Validate
    cases fieldErrors cv req <;> simp
  rw [hnil]
  unfold fieldErrors nameFailure priceFailure stockFailure requiredString minZeroFloat minZeroInt
  by_cases h1 : req.Name = "" <;> by_cases h2 : requiredFloat cv req.Price = true <;>
    by_cases h3 : req.Price.geZero = true <;> by_cases h4 : 0 ≤ req.Stock <;>
    simp [h1, h2, h3, h4]

/-- The create and update handlers answer 400 and leave the presenter alone
when the bound request does not pass validation. -/
theorem handlers_validate_first {π : Type} (h : ProductHandler π) (s : π) (rt : Runtime)
    (c : EchoContext) (req : ProductRequest) (err : Error) (hbody : c.body = some req)
    (hinvalid : c.Validate req = some err) :
    h.CreateProduct s rt c =
      (s, some { code := http.StatusBadRequest, body := Body.error err.Error }) ∧
    ((h.UpdateProduct s rt c).1 = s ∧
      ((h.UpdateProduct s rt c).2.map Response.code) = some http.StatusBadRequest) := by
  refine ⟨by simp [ProductHandler.CreateProduct, hbody, hinvalid], ?_⟩
  cases hid : strconv.ParseUint (c.Param "id") 32 <;>
    simp [ProductHandler.UpdateProduct, hid, hbody, hinvalid]

/-- C13. Validation accepts a request exactly when its name is not empty, its
price is not the zero value of `float64` and is not below 0, and its stock is
not below 0. So the request `freeWidget`, with a name, the price exactly 0 and
stock 5, is rejected on the tag `required` of `Price`, and `POST /products`
with it answers 400; a request with stock 0 is accepted. -/
theorem price_zero_is_rejected (cv : CustomValidator) (clock : Clock) (rt : Runtime) :
    (∀ req : ProductRequest, cv.Validate req = none ↔
      req.Name ≠ "" ∧ requiredFloat cv req.Price = true ∧ req.Price.geZero = true ∧
        0 ≤ req.Stock) ∧
    (freeWidget.Name ≠ "" ∧ freeWidget.Price.geZero = true ∧ 0 ≤ freeWidget.Stock) ∧
    requiredFloat cv freeWidget.Price = false ∧
    cv.Validate freeWidget = some (Error.other "*echo.HTTPError"
      ("code=400, message=Key: 'ProductRequest.Price' Error:Field validation for 'Price' " ++
        "failed on the 'required' tag")) ∧
    (simpleHandler.CreateProduct (NewSimpleProductRepository clock) rt
      { postFreeWidget with Validator := some cv }).2 =
      some { code := 400,
             body := Body.error ("code=400, message=Key: 'ProductRequest.Price' " ++
               "Error:Field validation for 'Price' failed on the 'required' tag") } ∧
    cv.Validate { widget with Stock := 0 } = none ∧
    cv.Validate widget = none := by
  obtain ⟨flag⟩ := cv
  refine ⟨fun req => validate_passes_iff _ req, by decide, ?_, ?_, ?_, ?_, ?_⟩
  · cases flag <;> decide
  · cases flag <;> decide
  · cases flag <;> rfl
  · cases flag <;> decide
  · cases flag <;> decide

/-! ## The update handler -/

/-- C14. `PUT /products/1` with a valid body, when the presenter reports that
no record with the id was found: over every presenter that returns the error
`e` the handler answers 500 with the text of `e`; so it does over the
presenter of a store whose `GetByID` fails with "record not found"; and the
handler answers 404 on no request at all. -/
theorem update_missing_answers_500 (π : Type) (presenter : ProductPresenter π) (s : π)
    (rt : Runtime) (e : Error) (h : ProductHandler π) (c : EchoContext) (clock : Clock) :
    ((NewProductHandler
      { presenter with
        UpdateProduct := fun s1 _ _ _ _ => (s1, CallResult.returned none (some e)) }).UpdateProduct
      s rt putWidget).2 = some { code := 500, body := Body.error e.Error } ∧
    ((NewProductHandler (NewProductPresenter
      { simpleRepo with
        GetByID := fun r _ => (r, none, some (errors.New "record not found")) })).UpdateProduct
      (NewSimpleProductRepository clock) promptly putWidget).2 =
      some { code := 500, body := Body.error "record not found" } ∧
    ((h.UpdateProduct s rt c).2.map Response.code) ≠ some http.StatusNotFound := by
  refine ⟨rfl, rfl, ?_⟩
  cases hid : strconv.ParseUint (c.Param "id") 32 with
  | none => simp [ProductHandler.UpdateProduct, hid, http.StatusBadRequest, http.StatusNotFound]
  | some id =>
    cases hbody : c.body with
    | none =>
      simp [ProductHandler.UpdateProduct, hid, hbody, http.StatusBadRequest,
        http.StatusNotFound]
    | some req =>
      cases hvalid : c.Validate req with
      | some err =>
        simp [ProductHandler.UpdateProduct, hid, hbody, hvalid, http.StatusBadRequest,
          http.StatusNotFound]
      | none =>
        rcases hcall : h.presenter.UpdateProduct s rt c.ctx id req with ⟨s1, result⟩
        cases result with
        | crashed => simp [ProductHandler.UpdateProduct, hid, hbody, hvalid, hcall, writeResult]
        | returned product err =>
          cases err <;>
            simp [ProductHandler.UpdateProduct, hid, hbody, hvalid, hcall, writeResult,
              http.StatusOK, http.StatusInternalServerError, http.StatusNotFound]

/-! ## The timeout -/

/-- When the goroutine finishes strictly before the timer fires and strictly
before `ctx.Done()` is closed, its result is the only case that can proceed,
and `select` takes it. -/
theorem selectArm_of_result_first (ctx : Context) (rt : Runtime) (t : Nat)
    (hop : rt.opAt = some t) (htimer : t < operationTimeout)
    (hctx : ∀ u, ctx.doneAt = some u → t < u) :
    selectArm ctx rt = Arm.resultChan := by
  obtain ⟨doneAt, reason⟩ := ctx
  obtain ⟨opAt, rand⟩ := rt
  simp only at hop hctx
  subst hop
  have h1 : min operationTimeout t = t := Nat.min_eq_right (Nat.le_of_lt htimer)
  have h2 : ¬ operationTimeout ≤ t := Nat.not_le.mpr htimer
  cases doneAt with
  | none =>
    simp [selectArm, readyArms, isReady, readyAt, commitAt, earlier, List.filter_cons, h1, h2,
      Nat.mod_one]
  | some u =>
    have hu : t < u := hctx u rfl
    have h3 : min operationTimeout u ⊓ t = t := by
      rw [Nat.min_eq_right]
      exact Nat.le_min.mpr ⟨Nat.le_of_lt htimer, Nat.le_of_lt hu⟩
    have h4 : ¬ u ≤ t := Nat.not_le.mpr hu
    simp [selectArm, readyArms, isReady, readyAt, commitAt, earlier, List.filter_cons, h2, h3,
      h4, Nat.mod_one]

/-- C15, as stated, fails: there are no two calls whose timers differ, let
alone two with timers `d1 < d2` and an operation that finishes between them,
timing out in the first call and delivering in the second. Under a context
that is never done, an operation that finishes after 10 s is delivered in every
call and one that finishes after 40 s times out in every call. -/
theorem timeout_not_configurable :
    (¬ ∃ (ctx1 ctx2 : Context) (rt1 rt2 : Runtime) (d1 d2 t : Nat),
      readyAt ctx1 rt1 Arm.timeAfter = some d1 ∧ readyAt ctx2 rt2 Arm.timeAfter = some d2 ∧
      d1 < t ∧ t < d2 ∧ rt1.opAt = some t ∧ rt2.opAt = some t ∧
      selectArm ctx1 rt1 = Arm.timeAfter ∧ selectArm ctx2 rt2 = Arm.resultChan) ∧
    (∀ rand : Nat,
      selectArm context.Background { opAt := some (10 * time.Second), rand := rand } =
        Arm.resultChan) ∧
    (∀ rand : Nat,
      selectArm context.Background { opAt := some (40 * time.Second), rand := rand } =
        Arm.timeAfter) := by
  refine ⟨?_, ?_, ?_⟩
  · rintro ⟨ctx1, ctx2, rt1, rt2, d1, d2, t, h1, h2, hlt1, hlt2, _⟩
    simp only [readyAt, Option.some.injEq] at h1 h2
    omega
  · intro rand
    exact selectArm_of_result_first _ _ (10 * time.Second) rfl (by decide)
      (by intro u h; cases h)
  · intro rand
    exact selectArm_of_timer_first _ _ (by intro t h; cases h; decide) (by intro t h; cases h)

/-- C15, amended. The timeout that `CreateProduct` and `UpdateProduct` race
against is the constant 30 s written into both `select`s; neither the presenter
nor a call carries a parameter for it. Under a context that is never done, in
every call and over every store: an operation that finishes strictly before
30 s has its outcome delivered, and one that finishes strictly after 30 s
gives the timeout error. -/
theorem timeout_is_thirty_seconds {σ : Type} (p : productPresenter σ) (s : σ) (rt : Runtime)
    (ctx : Context) (id : Nat) (req : ProductRequest) (t : Nat)
    (hop : rt.opAt = some t) (hctx : ctx.doneAt = none) :
    operationTimeout = 30000000000 ∧
    readyAt ctx rt Arm.timeAfter = some 30000000000 ∧
    (t < operationTimeout →
      (∀ s1 created err, p.productRepo.Create s (newProduct req) = (s1, created, err) →
        (p.CreateProduct s rt ctx req).2 = onResult { product := some created, err := err }) ∧
      (p.UpdateProduct s rt ctx id req).2 =
        (((updateGoroutine p s id req).sends.head?).map onResult).getD CallResult.crashed) ∧
    (operationTimeout < t →
      (p.CreateProduct s rt ctx req).2 =
        CallResult.returned none (some (errors.New "operation timeout")) ∧
      (p.UpdateProduct s rt ctx id req).2 =
        CallResult.returned none (some (errors.New "operation timeout"))) := by
  refine ⟨by decide, rfl, ?_, ?_⟩
  · intro hlt
    have hwin := selectArm_of_result_first ctx rt t hop hlt (by intro u h; rw [hctx] at h; cases h)
    refine ⟨?_, ?_⟩
    · intro s1 created err h
      simp [productPresenter.CreateProduct, createGoroutine, await, hwin, h]
    · simp only [productPresenter.UpdateProduct, await, hwin]
      cases (updateGoroutine p s id req).sends.head? <;> rfl
  · intro hlt
    have h := timer_first_gives_timeout p s rt ctx id req
      (by intro u h; rw [hop] at h; cases h; exact hlt) (by intro u h; rw [hctx] at h; cases h)
    exact h

/-- Witness of C15 amended: a create that finishes after 5 ns over the empty
in-memory store. -/
theorem timeout_is_thirty_seconds_witness :
    promptly.opAt = some 5 ∧ context.Background.doneAt = none ∧
    readyAt context.Background promptly Arm.timeAfter = some 30000000000 :=
  ⟨rfl, rfl,
   (timeout_is_thirty_seconds simplePresenter (NewSimpleProductRepository sampleClock) promptly
      context.Background 1 widget 5 rfl rfl).2.1⟩

/-! ## The list handler -/

/-- `Atoi` on a few strings: a sign is allowed, an underscore is not, a numeral
beyond the range of `int` gives the nearest `int`, and so does a run of digits
that leaves the range of `uint64` before a character that is not a digit. -/
theorem atoi_samples :
    strconv.Atoi "12" = (12, none) ∧ strconv.Atoi "+7" = (7, none) ∧
    strconv.Atoi "-3" = (-3, none) ∧ strconv.Atoi "" = (0, some NumError.malformed) ∧
    strconv.Atoi "abc" = (0, some NumError.malformed) ∧
    strconv.Atoi "1_0" = (0, some NumError.malformed) ∧
    strconv.Atoi "9223372036854775807" = (9223372036854775807, none) ∧
    strconv.Atoi "9223372036854775808" = (9223372036854775807, some NumError.outOfRange) ∧
    strconv.Atoi "-9223372036854775809" = (-9223372036854775808, some NumError.outOfRange) ∧
    strconv.Atoi "99999999999999999999" = (9223372036854775807, some NumError.outOfRange) ∧
    strconv.Atoi "99999999999999999999x" = (9223372036854775807, some NumError.outOfRange) ∧
    strconv.Atoi "9999999999999999999x" = (0, some NumError.malformed) ∧
    strconv.Atoi "12x" = (0, some NumError.malformed) ∧
    strconv.Atoi "-" = (0, some NumError.malformed) := by
  decide

/-- C16. The `GetProducts` handler clamps its query parameters before it calls
the presenter: with `Atoi`'s value of the query string (0 for a missing or
non-numeric string) the page it passes on is that value if it is at least 1
and 1 otherwise, the limit is that value if it is at least 1 and 10 otherwise;
the presenter is called with exactly these two, both at least 1, and a 200
response carries them as `page` and `limit`. -/
theorem getProducts_clamps {π : Type} (h : ProductHandler π) (s : π) (c : EchoContext)
    (calls : List (Int × Int)) :
    pageParam c = (if 1 ≤ (strconv.Atoi (c.QueryParam "page")).1
      then (strconv.Atoi (c.QueryParam "page")).1 else 1) ∧
    limitParam c = (if 1 ≤ (strconv.Atoi (c.QueryParam "limit")).1
      then (strconv.Atoi (c.QueryParam "limit")).1 else 10) ∧
    ((strconv.Atoi (c.QueryParam "page")).2 = some NumError.malformed → pageParam c = 1) ∧
    ((strconv.Atoi (c.QueryParam "limit")).2 = some NumError.malformed → limitParam c = 10) ∧
    (c.QueryParam "page" = "" → pageParam c = 1) ∧
    (c.QueryParam "limit" = "" → limitParam c = 10) ∧
    1 ≤ pageParam c ∧ 1 ≤ limitParam c ∧
    h.GetProducts s c =
      ((h.presenter.GetProducts s c.ctx (pageParam c) (limitParam c)).1,
        (match (h.presenter.GetProducts s c.ctx (pageParam c) (limitParam c)).2.2.2 with
          | some e => { code := 500, body := Body.error e.Error }
          | none =>
            { code := 200,
              body := Body.listing
                (h.presenter.GetProducts s c.ctx (pageParam c) (limitParam c)).2.1
                (h.presenter.GetProducts s c.ctx (pageParam c) (limitParam c)).2.2.1
                (pageParam c) (limitParam c) })) ∧
    (NewProductHandler (NewProductPresenter recordingRepo)).GetProducts calls c =
      (calls ++ [(pageParam c, limitParam c)],
        { code := 200, body := Body.listing [] 0 (pageParam c) (limitParam c) }) := by
  have hpage : ∀ q : String, (strconv.Atoi q).2 = some NumError.malformed →
      (if (strconv.Atoi q).1 ≤ 0 then (1 : Int) else (strconv.Atoi q).1) = 1 := by
    intro q hq
    rw [atoi_malformed q hq]
    rfl
  have hlimit : ∀ q : String, (strconv.Atoi q).2 = some NumError.malformed →
      (if (strconv.Atoi q).1 ≤ 0 then (10 : Int) else (strconv.Atoi q).1) = 10 := by
    intro q hq
    rw [atoi_malformed q hq]
    rfl
  refine ⟨?_, ?_, fun hq => hpage _ hq, fun hq => hlimit _ hq, ?_, ?_, (params_positive c).1,
    (params_positive c).2, ?_, rfl⟩
  · unfold pageParam
    split_ifs <;> first | rfl | omega
  · unfold limitParam
    split_ifs <;> first | rfl | omega
  · intro hq
    unfold pageParam
    rw [hq]
    rfl
  · intro hq
    unfold limitParam
    rw [hq]
    rfl
  · rcases hcall : h.presenter.GetProducts s c.ctx (pageParam c) (limitParam c) with
      ⟨s1, products, total, err⟩
    cases err <;>
      simp [ProductHandler.GetProducts, hcall, http.StatusOK, http.StatusInternalServerError]

/-- Witness of C16: `?page=0&limit=abc` is passed on as page 1 and limit 10,
`?page=3&limit=25` as it is. -/
theorem getProducts_clamps_witness :
    (strconv.Atoi ((listRequest "0" "abc").QueryParam "limit")).2 = some NumError.malformed ∧
    limitParam (listRequest "0" "abc") = 10 ∧
    pageParam (listRequest "0" "abc") = 1 ∧
    pageParam (listRequest "3" "25") = 3 ∧ limitParam (listRequest "3" "25") = 25 :=
  ⟨(by decide),
   (getProducts_clamps simpleHandler (NewSimpleProductRepository sampleClock)
      (listRequest "0" "abc") []).2.2.2.1 (by decide),
   (by decide), (by decide), (by decide)⟩

/-! ## The update operation -/

/-- C17. In `UpdateProduct` the fetch and the save are one operation. When the
fetch by id fails with the error `e`, then whichever case the caller's `select`
takes: the goroutine sends (nil, `e`) and nothing else, the store is the one
the fetch left (unchanged when the fetch itself changes nothing), and the call
does not depend on the store's `Update` at all, which is never called; a
caller that takes the goroutine's result gets exactly `e` and no projection.
When the fetch succeeds and the save fails with `e2`, a caller that takes the
result gets exactly `e2` and no projection. -/
theorem update_failure_is_atomic {σ : Type} (p : productPresenter σ) (s : σ) (rt : Runtime)
    (ctx : Context) (id : Nat) (req : ProductRequest) :
    (∀ s1 found e, p.productRepo.GetByID s id = (s1, found, some e) →
      (p.UpdateProduct s rt ctx id req).1 = s1 ∧
      (s1 = s → (p.UpdateProduct s rt ctx id req).1 = s) ∧
      (updateGoroutine p s id req).store = s1 ∧
      (updateGoroutine p s id req).sends = [{ product := none, err := some e }] ∧
      (updateGoroutine p s id req).panicked = false ∧
      (∀ f : σ → Product → σ × Product × Option Error,
        productPresenter.UpdateProduct { productRepo := { p.productRepo with Update := f } }
          s rt ctx id req = p.UpdateProduct s rt ctx id req) ∧
      (selectArm ctx rt = Arm.resultChan →
        (p.UpdateProduct s rt ctx id req).2 = CallResult.returned none (some e))) ∧
    (∀ s1 found s2 saved e2, p.productRepo.GetByID s id = (s1, some found, none) →
      p.productRepo.Update s1 (updateFields found req) = (s2, saved, some e2) →
      selectArm ctx rt = Arm.resultChan →
      (p.UpdateProduct s rt ctx id req).2 = CallResult.returned none (some e2)) := by
  refine ⟨?_, ?_⟩
  · intro s1 found e h
    have hstore : (p.UpdateProduct s rt ctx id req).1 = s1 := by
      simp [productPresenter.UpdateProduct, updateGoroutine, h]
    refine ⟨hstore, ?_, ?_, ?_, ?_, ?_, ?_⟩
    · intro hsame
      rw [hstore, hsame]
    · simp [updateGoroutine, h]
    · simp [updateGoroutine, h]
    · simp [updateGoroutine, h]
    · intro f
      simp [productPresenter.UpdateProduct, updateGoroutine, h]
    · intro hwin
      simp [productPresenter.UpdateProduct, updateGoroutine, await, hwin, h, onResult]
  · intro s1 found s2 saved e2 h h2 hwin
    simp [productPresenter.UpdateProduct, updateGoroutine, await, hwin, h, h2, onResult]

/-- Witness of C17: an update over a store whose `GetByID` fails with "record
not found"; once with a caller that takes the result, once with a caller that
has gone on cancellation. -/
theorem update_failure_is_atomic_witness :
    selectArm context.Background promptly = Arm.resultChan ∧
    (productPresenter.UpdateProduct
      { productRepo :=
          { simpleRepo with
            GetByID := fun r _ => (r, none, some (errors.New "record not found")) } }
      (NewSimpleProductRepository sampleClock) promptly context.Background 1 widget).2 =
      CallResult.returned none (some (Error.errorString "record not found")) ∧
    (productPresenter.UpdateProduct
      { productRepo :=
          { simpleRepo with
            GetByID := fun r _ => (r, none, some (errors.New "record not found")) } }
      (NewSimpleProductRepository sampleClock) promptly cancelledSoon 1 widget).1.products =
      [] :=
  ⟨(by decide),
   ((update_failure_is_atomic
      { productRepo :=
          { simpleRepo with
            GetByID := fun r _ => (r, none, some (errors.New "record not found")) } }
      (NewSimpleProductRepository sampleClock) promptly context.Background 1 widget).1
        _ none _ rfl).2.2.2.2.2.2 (by decide),
   congrArg SimpleProductRepository.products
     ((update_failure_is_atomic
        { productRepo :=
            { simpleRepo with
              GetByID := fun r _ => (r, none, some (errors.New "record not found")) } }
        (NewSimpleProductRepository sampleClock) promptly cancelledSoon 1 widget).1
          _ none _ rfl).1⟩

/-- C18. `UpdateProduct` over a store whose `GetByID` reports absence as a nil
record with a nil error, as the in-memory store does for an unknown id: the
goroutine dereferences the nil record at `product.Name = req.Name`, panics and
sends nothing; a caller that is still waiting sees the process go down, and
the update handler writes no response. The sibling `GetProduct` tests the
record for nil and returns a nil projection. -/
theorem update_absent_panics (clock : Clock) (id : Nat) (req : ProductRequest) (σ : Type)
    (repo : ProductRepository σ) (s : σ) :
    (simpleRepo.GetByID (NewSimpleProductRepository clock) id).2 = (none, none) ∧
    (updateGoroutine simplePresenter (NewSimpleProductRepository clock) id req).panicked =
      true ∧
    (updateGoroutine simplePresenter (NewSimpleProductRepository clock) id req).sends = [] ∧
    (simplePresenter.UpdateProduct (NewSimpleProductRepository clock) promptly
      context.Background id req).2 = CallResult.crashed ∧
    (simpleHandler.UpdateProduct (NewSimpleProductRepository clock) promptly putWidget).2 =
      none ∧
    (updateGoroutine { productRepo := { repo with GetByID := fun s1 _ => (s1, none, none) } }
      s id req).panicked = true ∧
    (updateGoroutine { productRepo := { repo with GetByID := fun s1 _ => (s1, none, none) } }
      s id req).sends = [] ∧
    (simplePresenter.GetProduct (NewSimpleProductRepository clock) context.Background id).2 =
      (none, none) := by
  refine ⟨rfl, rfl, rfl, ?_, ?_, rfl, rfl, rfl⟩
  · have hwin : selectArm context.Background promptly = Arm.resultChan := by decide
    simp [productPresenter.UpdateProduct, await, hwin, updateGoroutine, simplePresenter,
      simpleRepo, SimpleProductRepository.GetByID, NewSimpleProductRepository]
  · rfl

end SimpleGoroutineProduct
